import Mathlib

/-!
Verification development for the pyNastran cross-reference resolver
(`pyNastran/bdf/bdfInterface/crossReference.py`, class `XrefMesh`) and the
complex stress/strain binary record decoder
(`pyNastran/op2/tables/oes_stressStrain/complex/elementsStressStrain.py`,
class `ComplexElementsStressStrain`).

The resolver is embedded as a pure state-transformer over an explicit
model and xref state; each entity's own `cross_reference(model)` call is
abstracted by its recorded outcome (success, or the Python exception type
it raises), since the entity classes are external collaborators.  The
decoder is embedded over byte buffers as lists of byte values; 4-byte
words are kept as raw 32-bit words (the IEEE-754 reinterpretation of the
float fields is irrelevant to the chunking/width properties considered
here, and which complex interpretation was chosen is recorded
symbolically).
-/

set_option autoImplicit false

/-- Python exception types relevant to the two source files.
`nameError` also stands for `UnboundLocalError` (its subclass);
`otherError` stands for any exception type not named here. -/
inductive PyExc where
  | synError      -- SyntaxError
  | rtError       -- RuntimeError (includes CrossReferenceError)
  | assertError   -- AssertionError
  | keyError      -- KeyError
  | valueError    -- ValueError
  | typeError     -- TypeError
  | attrError     -- AttributeError
  | nameError     -- NameError / UnboundLocalError
  | otherError
  deriving DecidableEq, Repr

/-- The exception filter of the tolerant stages: the literal tuple
`except (SyntaxError, RuntimeError, AssertionError, KeyError, ValueError)`
appearing in `_cross_reference_elements`, `_cross_reference_masses`,
`_cross_reference_properties`, `_cross_reference_materials` and
`_cross_reference_loads`. -/
def tolerated : PyExc → Bool
  | .synError => true
  | .rtError => true
  | .assertError => true
  | .keyError => true
  | .valueError => true
  | _ => false

/-- Categories of trace events, one per kind of `cross_reference` (or
`setup`) call the resolver can make.  The constructor names follow the
model attribute iterated over. -/
inductive Cat where
  | nodeC | spointC
  | coordC | setupC
  | elemC | rigidC
  | linkC
  | propC
  | massC | pmassC
  | matC | matdepC
  | caeroC | paeroC | splineC | aecompC | aelistC | aeparamC | aestatC | aesurfC
  | spcaddC | spcC | mpcaddC | mpcC | suportC | suport1C | sesuportC
  | loadC | dloadC | dloadeC
  | asetC | bsetC | csetC | qsetC | usetC
  | sesetC | sebsetC | secsetC | seqsetC | seusetC
  | drespC | dconstrC
  deriving DecidableEq, Repr

/-- A trace event: the category of the loop and the id of the entity
whose `cross_reference` (or `setup`) completed successfully. -/
abbrev XEvent := Cat × Nat

/-- A node slot of a resolved element's `.nodes` list: either a live GRID
object (carrying its `.nid`) or a raw unresolved integer id (which has no
`.nid` attribute, so `node.nid` on it raises `AttributeError`). -/
inductive NodeRef where
  | live (nid : Nat)
  | raw (i : Nat)
  deriving DecidableEq, Repr

/-- A generic card (entity).  `xref` abstracts the entity's own
`cross_reference(model)` method: `none` means it succeeds, `some e`
means it raises exception `e`.  `nodes` is only meaningful for elements
(`element.nodes`, which may be Python `None`, and whose slots may be
`None`). -/
structure Entity where
  eid : Nat
  xref : Option PyExc := none
  nodes : Option (List (Option NodeRef)) := none
  deriving DecidableEq, Repr

/-- A coordinate card: `xref` abstracts `coord.cross_reference(model)`,
`setup` abstracts `coord.setup()`. -/
structure Coord where
  cid : Nat
  xref : Option PyExc := none
  setup : Option PyExc := none
  deriving DecidableEq, Repr

/-- The model container (the `BDF` object `self`), restricted to the
collections `XrefMesh` iterates over.  Python dictionaries are embedded
as lists in iteration order; dict-of-list collections (`spcs`, `mpcs`,
`loads`, `dloads`, `dload_entries`, `usets`) as lists of lists. -/
structure Model where
  nodes : List Entity := []
  spoints : Bool := false          -- whether `self.spoints` is non-empty
  coords : List Coord := []
  elements : List Entity := []
  rigidElements : List Entity := []
  properties : List Entity := []
  masses : List Entity := []
  properties_mass : List Entity := []
  materials : List Entity := []
  material_deps : List (List Entity) := []  -- MATS1,MATS3,MATS8,MATT1..MATT5,MATT8,MATT9
  caeros : List Entity := []
  paeros : List Entity := []
  splines : List Entity := []
  aecomps : List Entity := []
  aelists : List Entity := []
  aeparams : List Entity := []
  aestats : List Entity := []
  aesurfs : List Entity := []
  spcadds : List Entity := []
  spcs : List (List Entity) := []
  mpcadds : List Entity := []
  mpcs : List (List Entity) := []
  suport : List Entity := []
  suport1 : List Entity := []
  se_suport : List Entity := []
  loads : List (List Entity) := []
  dloads : List (List Entity) := []
  dload_entries : List (List Entity) := []
  asets : List Entity := []
  bsets : List Entity := []
  csets : List Entity := []
  qsets : List Entity := []
  usets : List (List Entity) := []
  se_sets : List Entity := []
  se_bsets : List Entity := []
  se_csets : List Entity := []
  se_qsets : List Entity := []
  se_usets : List Entity := []
  dresps : List Entity := []
  dconstrs : List Entity := []
  deriving DecidableEq, Repr

/-- Mutable state of a resolution pass: the `XrefMesh` instance fields
set in `XrefMesh.__init__`, the model-level aggregates mutated during
resolution, and a trace of the successful `cross_reference`/`setup`
calls made (in order). -/
structure XSt where
  ixref_errors : Nat := 0                        -- self._ixref_errors
  nxref_errors : Nat := 100                      -- self._nxref_errors
  stop_on_xref_error : Bool := true              -- self._stop_on_xref_error
  stored_xref_errors : List (Nat × PyExc) := []  -- self._stored_xref_errors
  pop_calls : Nat := 0       -- number of invocations of self.pop_xref_errors()
  spcObject : List Nat := [] -- ids Added/appended to self.spcObject
  mpcObject : List Nat := [] -- ids Added/appended to self.mpcObject
  spointi : Bool := false    -- whether self.spointi was built
  node_elements : List (Nat × List Nat) := []  -- node.elements per node id
  trace : List XEvent := []
  deriving DecidableEq, Repr

/-- The state produced by `XrefMesh.__init__`. -/
def initXSt : XSt := {}

/-- Result of running a stage: the state reached, plus `some e` when the
stage raised exception `e` at that point (skipping the rest of the
stage/pass), `none` when it ran to completion. -/
abbrev StageR := XSt × Option PyExc

/-- Sequencing of stages with exception propagation. -/
def andThen (r : StageR) (f : XSt → StageR) : StageR :=
  match r with
  | (st, none) => f st
  | (st, some e) => (st, some e)

/-- A non-tolerant loop `for e in collection: e.cross_reference(self)`:
the first exception propagates out immediately. -/
def plainLoop (c : Cat) (st : XSt) : List Entity → StageR
  | [] => (st, none)
  | e :: rest =>
    match e.xref with
    | none => plainLoop c { st with trace := st.trace ++ [(c, e.eid)] } rest
    | some exc => (st, some exc)

/-- One iteration of a tolerant loop body:
```
try:
    e.cross_reference(self)
except (SyntaxError, RuntimeError, AssertionError, KeyError, ValueError) as e:
    self._ixref_errors += 1
    var = traceback.format_exception_only(type(e), e)
    self._stored_xref_errors.append((elem, var))
    if self._ixref_errors > self._nxref_errors:
        self.pop_xref_errors()
```
-/
def tolerantOne (c : Cat) (st : XSt) (e : Entity) : StageR :=
  match e.xref with
  | none => ({ st with trace := st.trace ++ [(c, e.eid)] }, none)
  | some exc =>
    if tolerated exc then
      let st1 := { st with
        ixref_errors := st.ixref_errors + 1,
        stored_xref_errors := st.stored_xref_errors ++ [(e.eid, exc)] }
      (if st1.ixref_errors > st1.nxref_errors
       then { st1 with pop_calls := st1.pop_calls + 1 }
       else st1, none)
    else (st, some exc)

/-- A tolerant loop over one collection. -/
def tolerantLoop (c : Cat) (st : XSt) : List Entity → StageR
  | [] => (st, none)
  | e :: rest => andThen (tolerantOne c st e) (fun st' => tolerantLoop c st' rest)

/-- A tolerant loop over a dict-of-lists collection (`loads`, `dloads`,
`dload_entries`) or a list of dicts (`material_deps`). -/
def tolerantLoops (c : Cat) (st : XSt) : List (List Entity) → StageR
  | [] => (st, none)
  | es :: rest => andThen (tolerantLoop c st es) (fun st' => tolerantLoops c st' rest)

/-- `_cross_reference_nodes`: each node's `cross_reference` failure is
logged and re-raised (it propagates); afterwards, if `self.spoints` is
non-empty, `self.spointi` is built. -/
def xref_nodes_st (m : Model) (st : XSt) : StageR :=
  andThen (plainLoop .nodeC st m.nodes) (fun st' =>
    if m.spoints then
      ({ st' with spointi := true, trace := st'.trace ++ [(.spointC, 0)] }, none)
    else (st', none))

/-- `_cross_reference_coordinates`: first every coordinate's
`cross_reference(self)`, then every coordinate's `setup()`. -/
def xref_coords_st (m : Model) (st : XSt) : StageR :=
  andThen (plainLoop .coordC st (m.coords.map (fun c => ⟨c.cid, c.xref, none⟩)))
    (fun st' => plainLoop .setupC st' (m.coords.map (fun c => ⟨c.cid, c.setup, none⟩)))

/-- `_cross_reference_elements`: tolerant loop over `self.elements`,
then tolerant loop over `self.rigidElements`. -/
def cross_reference_elements (m : Model) (st : XSt) : StageR :=
  andThen (tolerantLoop .elemC st m.elements)
    (fun st' => tolerantLoop .rigidC st' m.rigidElements)

/-- Set-insertion of an element id into the `defaultdict(set)` used by
`_cross_reference_nodes_with_elements` (`nodes[node.nid].add(element)`),
embedded as an association list from node id to the list of element
ids in first-insertion order. -/
def addToNode (nid eid : Nat) : List (Nat × List Nat) → List (Nat × List Nat)
  | [] => [(nid, [eid])]
  | (n, es) :: rest =>
    if n = nid then (n, if eid ∈ es then es else es ++ [eid]) :: rest
    else (n, es) :: addToNode nid eid rest

/-- Lookup in the association map with the `defaultdict` default `∅`. -/
def lookupD (mp : List (Nat × List Nat)) (nid : Nat) : List Nat :=
  match mp with
  | [] => []
  | (n, es) :: rest => if n = nid then es else lookupD rest nid

/-- The inner loop `for node in element.nodes` of
`_cross_reference_nodes_with_elements`: `None` slots are skipped
(`continue`); a raw integer slot has no `.nid`, so `nodes[node.nid]`
raises `AttributeError`, which is printed and re-raised (`none` result). -/
def addElemNodes (eid : Nat) (acc : List (Nat × List Nat)) :
    List (Option NodeRef) → Option (List (Nat × List Nat))
  | [] => some acc
  | none :: rest => addElemNodes eid acc rest
  | some (.live nid) :: rest => addElemNodes eid (addToNode nid eid acc) rest
  | some (.raw _) :: _ => none

/-- The outer loop `for element in self.elements.values()`: elements
whose `.nodes` is `None` are skipped. -/
def buildNodeElems (acc : List (Nat × List Nat)) :
    List Entity → Option (List (Nat × List Nat))
  | [] => some acc
  | e :: rest =>
    match e.nodes with
    | none => buildNodeElems acc rest
    | some l =>
      match addElemNodes e.eid acc l with
      | none => none
      | some acc' => buildNodeElems acc' rest

/-- `_cross_reference_nodes_with_elements`: build the inverse node→element
map from `self.elements`, then `node.elements = nodes[node.nid]` for every
model node. -/
def xref_nodes_with_elements_st (m : Model) (st : XSt) : StageR :=
  match buildNodeElems [] m.elements with
  | none => (st, some .attrError)
  | some mp =>
    ({ st with
        node_elements := m.nodes.map (fun nd => (nd.eid, lookupD mp nd.eid)),
        trace := st.trace ++ [(.linkC, 0)] }, none)

/-- `_cross_reference_properties`: tolerant loop over `self.properties`. -/
def cross_reference_properties (m : Model) (st : XSt) : StageR :=
  tolerantLoop .propC st m.properties

/-- `_cross_reference_masses`: tolerant loops over `self.masses` and
`self.properties_mass`. -/
def cross_reference_masses (m : Model) (st : XSt) : StageR :=
  andThen (tolerantLoop .massC st m.masses)
    (fun st' => tolerantLoop .pmassC st' m.properties_mass)

/-- `_cross_reference_materials`: tolerant loop over `self.materials`,
then tolerant loops over the ten material-dependency dicts
(MATS1, MATS3, MATS8, MATT1..MATT5, MATT8, MATT9). -/
def cross_reference_materials (m : Model) (st : XSt) : StageR :=
  andThen (tolerantLoop .matC st m.materials)
    (fun st' => tolerantLoops .matdepC st' m.material_deps)

/-- `_cross_reference_aero`: non-tolerant loops over the eight aero
collections, in source order. -/
def cross_reference_aero (m : Model) (st : XSt) : StageR :=
  andThen (plainLoop .caeroC st m.caeros) (fun st =>
  andThen (plainLoop .paeroC st m.paeros) (fun st =>
  andThen (plainLoop .splineC st m.splines) (fun st =>
  andThen (plainLoop .aecompC st m.aecomps) (fun st =>
  andThen (plainLoop .aelistC st m.aelists) (fun st =>
  andThen (plainLoop .aeparamC st m.aeparams) (fun st =>
  andThen (plainLoop .aestatC st m.aestats) (fun st =>
  plainLoop .aesurfC st m.aesurfs)))))))

/-- A non-tolerant loop over one constraint list that also appends each
entity to an aggregate (`self.spcObject.Add(spcadd)` /
`self.spcObject.append(spc)` / `self.mpcObject.append(mpc)`), then calls
its `cross_reference(self)`. -/
def aggLoop (c : Cat) (toMpc : Bool) (st : XSt) : List Entity → StageR
  | [] => (st, none)
  | e :: rest =>
    let st0 := if toMpc then { st with mpcObject := st.mpcObject ++ [e.eid] }
               else { st with spcObject := st.spcObject ++ [e.eid] }
    match e.xref with
    | none => aggLoop c toMpc { st0 with trace := st0.trace ++ [(c, e.eid)] } rest
    | some exc => (st0, some exc)

/-- The `mpcadds` loop of `_cross_reference_constraints`:
```
for mpcadd in itervalues(self.mpcadds):
    self.mpcObject.Add(mpcadd)
    mpc.cross_reference(mpcadd)
```
`mpc` is a local variable only assigned by the later `mpcs` loop, so on
the first iteration the `Add` succeeds and then evaluating `mpc` raises
`UnboundLocalError` (a `NameError`), aborting the stage. -/
def mpcaddLoop (st : XSt) : List Entity → StageR
  | [] => (st, none)
  | e :: _ => ({ st with mpcObject := st.mpcObject ++ [e.eid] }, some .nameError)

/-- Nested non-tolerant loop over a dict-of-lists constraint collection
(`spcs`, `mpcs`), appending to an aggregate. -/
def aggLoops (c : Cat) (toMpc : Bool) (st : XSt) : List (List Entity) → StageR
  | [] => (st, none)
  | es :: rest => andThen (aggLoop c toMpc st es) (fun st' => aggLoops c toMpc st' rest)

/-- Nested non-tolerant loop over a dict-of-lists collection (`usets`). -/
def plainLoops (c : Cat) (st : XSt) : List (List Entity) → StageR
  | [] => (st, none)
  | es :: rest => andThen (plainLoop c st es) (fun st' => plainLoops c st' rest)

/-- `_cross_reference_constraints`, in source order: `spcadds` (Add +
xref), `spcs` (append + xref), `mpcadds` (Add, then the buggy
`mpc.cross_reference(mpcadd)` call), `mpcs` (append + xref), `suport`,
`suport1`, `se_suport`. -/
def cross_reference_constraints (m : Model) (st : XSt) : StageR :=
  andThen (aggLoop .spcaddC false st m.spcadds) (fun st =>
  andThen (aggLoops .spcC false st m.spcs) (fun st =>
  andThen (mpcaddLoop st m.mpcadds) (fun st =>
  andThen (aggLoops .mpcC true st m.mpcs) (fun st =>
  andThen (plainLoop .suportC st m.suport) (fun st =>
  andThen (plainLoop .suport1C st m.suport1) (fun st =>
  plainLoop .sesuportC st m.se_suport))))))

/-- `_cross_reference_loads`: tolerant loops over the `loads`, `dloads`
and `dload_entries` dict-of-lists collections. -/
def cross_reference_loads (m : Model) (st : XSt) : StageR :=
  andThen (tolerantLoops .loadC st m.loads) (fun st =>
  andThen (tolerantLoops .dloadC st m.dloads) (fun st =>
  tolerantLoops .dloadeC st m.dload_entries))

/-- `_cross_reference_sets`: non-tolerant loops over the ten set
collections, in source order. -/
def cross_reference_sets (m : Model) (st : XSt) : StageR :=
  andThen (plainLoop .asetC st m.asets) (fun st =>
  andThen (plainLoop .bsetC st m.bsets) (fun st =>
  andThen (plainLoop .csetC st m.csets) (fun st =>
  andThen (plainLoop .qsetC st m.qsets) (fun st =>
  andThen (plainLoops .usetC st m.usets) (fun st =>
  andThen (plainLoop .sesetC st m.se_sets) (fun st =>
  andThen (plainLoop .sebsetC st m.se_bsets) (fun st =>
  andThen (plainLoop .secsetC st m.se_csets) (fun st =>
  andThen (plainLoop .seqsetC st m.se_qsets) (fun st =>
  plainLoop .seusetC st m.se_usets)))))))))

/-- `_cross_reference_optimization`: `dresps` then `dconstrs`. -/
def cross_reference_optimization (m : Model) (st : XSt) : StageR :=
  andThen (plainLoop .drespC st m.dresps) (fun st =>
  plainLoop .dconstrC st m.dconstrs)

/-- `cross_reference(...)`: the resolver's public entry point, with its
ten keyword arguments (in the source every one of them defaults to
`True`); `xref_optimization` is a local hard-coded `True`.  Stage order
as in the source: nodes, coordinates, then the toggled stages in source
order, then optimization. -/
def cross_reference (m : Model) (st : XSt)
    (xref : Bool)
    (xref_elements : Bool)
    (xref_nodes_with_elements : Bool)
    (xref_properties : Bool)
    (xref_masses : Bool)
    (xref_materials : Bool)
    (xref_loads : Bool)
    (xref_constraints : Bool)
    (xref_aero : Bool)
    (xref_sets : Bool) : StageR :=
  if xref then
    andThen (xref_nodes_st m st) (fun st =>
    andThen (xref_coords_st m st) (fun st =>
    andThen (if xref_elements then cross_reference_elements m st else (st, none)) (fun st =>
    andThen (if xref_nodes_with_elements then xref_nodes_with_elements_st m st else (st, none)) (fun st =>
    andThen (if xref_properties then cross_reference_properties m st else (st, none)) (fun st =>
    andThen (if xref_masses then cross_reference_masses m st else (st, none)) (fun st =>
    andThen (if xref_materials then cross_reference_materials m st else (st, none)) (fun st =>
    andThen (if xref_aero then cross_reference_aero m st else (st, none)) (fun st =>
    andThen (if xref_constraints then cross_reference_constraints m st else (st, none)) (fun st =>
    andThen (if xref_loads then cross_reference_loads m st else (st, none)) (fun st =>
    andThen (if xref_sets then cross_reference_sets m st else (st, none)) (fun st =>
    cross_reference_optimization m st)))))))))))
  else (st, none)

/-! ## Binary record decoder
(`ComplexElementsStressStrain`, `elementsStressStrain.py`).

Byte buffers are lists of byte values; each 4-byte little-endian group is
one raw 32-bit word.  Float words are never reinterpreted: a decoded
oscillatory pair is recorded symbolically as either a rectangular or a
polar complex value over its two raw words, which is exactly the
information the routine computes before handing the pair to the
accumulator.  Writes to the `op2_debug` debug file are external I/O and
have no effect on the decoder state, so they are not modelled. -/

/-- A decoded complex pair: `complex(r, i)` or `polar_to_real_imag(m, p)`
(the latter is `pyNastran.op2.op2_helper.polar_to_real_imag`, outside the
two source files; modelled from the spec: it converts a
(magnitude, phase) pair into the equivalent complex value). -/
inductive CVal where
  | rect (r i : Nat)
  | polar (mg ph : Nat)
  deriving DecidableEq, Repr

/-- A value forwarded to the accumulator: a raw (non-oscillatory) word
such as a fibre distance, or a complex pair. -/
inductive Val where
  | raw (w : Nat)
  | cplx (c : CVal)
  deriving DecidableEq, Repr

/-- Element-type names passed to the accumulator. -/
inductive EName where
  | cbar | cquad4 | cquad8 | ctria3 | ctria6 | ctriar
  deriving DecidableEq, Repr

/-- A grid label: the synthetic centroid label `'CEN/' + str(nNodes)` or
a plain grid number. -/
inductive Label where
  | cen (n : Nat)
  | grid (g : Nat)
  deriving DecidableEq, Repr

/-- One call on the accumulator `self.obj`.  `newEidT` is the
`add_new_eid(self.element_type, dt, eid, ...)` form whose first argument
is the numeric element type; `newEidTup`/`addTup` are the
`add_new_eid(self.element_type, dt, data)` / `add(dt, data)` forms of
`OES_CQUAD4NL_90_alt`, whose `data` tuple is raw (unconverted) words
with the extracted eid in front. -/
inductive ObjCall where
  | newEid (ename : Option EName) (dt : Nat) (eid : Nat) (lbl : Option Label) (vals : List Val)
  | addCall (dt : Nat) (eid : Nat) (lbl : Option Label) (vals : List Val)
  | newNode (dt : Nat) (eid : Nat) (g : Nat) (vals : List Val)
  | newEidT (etype dt eid : Nat) (vals : List Val)
  | newEidTup (etype dt : Nat) (vals : List Nat)
  | addTup (dt : Nat) (vals : List Nat)
  deriving DecidableEq, Repr

/-- Decoder state: the byte buffer `self.data` plus the table attributes
a routine consults, and the accumulated calls on `self.obj`. -/
structure DecSt where
  data : List Nat
  num_wide : Nat := 0          -- self.num_wide
  element_type : Nat := 0      -- self.element_type
  nonlinear_factor : Nat := 0  -- dt
  is_mag_phase : Bool := false -- self.is_magnitude_phase()
  objCalls : List ObjCall := []
  deriving DecidableEq, Repr

/-- Result of a decode routine: final state plus the exception it
raised, if any. -/
abbrev DecR := DecSt × Option PyExc

/-- Modelled from the spec: the ID-extraction function returned by
`getOUG_FormatStart` (not in the source files) separates the true
element id from the device code packed into the identifier word, in the
context of the current non-linear factor.  The leading format it
returns is a single 32-bit identifier word. -/
def extract_eid (eid_device _dt : Nat) : Nat := eid_device / 10

/-- Little-endian 32-bit word from four bytes. -/
def le32 (a b c d : Nat) : Nat := a + 256 * (b + 256 * (c + 256 * d))

/-- Group a byte list into 32-bit words (`struct.unpack` of a run of
4-byte fields, each kept as its raw word). -/
def words4 : List Nat → List Nat
  | a :: b :: c :: d :: rest => le32 a b c d :: words4 rest
  | _ => []

/-- `polar_to_real_imag(r, i) if is_magnitude_phase else complex(r, i)`. -/
def mkc (mp : Bool) (r i : Nat) : Val :=
  if mp then .cplx (.polar r i) else .cplx (.rect r i)

/-- The loop of `OES_Elas1_alt`: per 12-byte record, unpack
`(eid, axialReal, axialImag)`, convert, `add_new_eid(dt, eid, axial)`.
The fallback branch is unreachable: the iteration count guarantees each
slice is a full record. -/
def elas1Loop (mp : Bool) (dt : Nat) (s : DecSt) : Nat → Nat → DecSt
  | 0, n => { s with data := s.data.drop n }
  | k + 1, n =>
    match words4 ((s.data.drop n).take 12) with
    | [eid_device, axialReal, axialImag] =>
      let axial := mkc mp axialReal axialImag
      let eid := extract_eid eid_device dt
      elas1Loop mp dt
        { s with objCalls := s.objCalls ++ [.newEid none dt eid none [axial]] }
        k (n + 12)
    | _ => s

/-- `OES_Elas1_alt`: `nTotal = 12`, `nEntries = len(self.data) // nTotal`,
decode `nEntries` records, then `self.data = self.data[n:]`.  It never
consults `self.num_wide`. -/
def OES_Elas1_alt (s : DecSt) : DecR :=
  let nTotal := 12
  let nEntries := s.data.length / nTotal
  (elas1Loop s.is_mag_phase s.nonlinear_factor s nEntries 0, none)

/-- `OES_Rod1_alt`: after computing `ntotal = 12` and
`nelements = len(self.data) // ntotal`, the loop header
`for i in xrange(nEntries)` names the undefined `nEntries` (the variable
actually assigned is `nelements`), so the routine raises `NameError`
before any chunk is consumed and before the trailing
`self.data = self.data[n:]` truncation runs.  It never consults
`self.num_wide` either. -/
def OES_Rod1_alt (s : DecSt) : DecR :=
  let ntotal := 12
  let _nelements := s.data.length / ntotal
  (s, some .nameError)

/-- The loop of `OES_CBAR_34_alt`: per 76-byte record, unpack the id
word and 18 float words, convert the nine (real, imag) pairs, and call
`add_new_eid('CBAR', dt, eid, s1a, s2a, s3a, s4a, axial, s1b, s2b, s3b, s4b)`. -/
def cbarLoop (mp : Bool) (dt : Nat) (s : DecSt) : Nat → Nat → DecSt
  | 0, n => { s with data := s.data.drop n }
  | k + 1, n =>
    match words4 ((s.data.drop n).take 76) with
    | [eid_device, s1ar, s2ar, s3ar, s4ar, axialr,
       s1ai, s2ai, s3ai, s4ai, axiali,
       s1br, s2br, s3br, s4br,
       s1bi, s2bi, s3bi, s4bi] =>
      let eid := extract_eid eid_device dt
      cbarLoop mp dt
        { s with objCalls := s.objCalls ++
          [.newEid (some .cbar) dt eid none
            [mkc mp s1ar s1ai, mkc mp s2ar s2ai, mkc mp s3ar s3ai,
             mkc mp s4ar s4ai, mkc mp axialr axiali,
             mkc mp s1br s1bi, mkc mp s2br s2bi, mkc mp s3br s3bi,
             mkc mp s4br s4bi]] }
        k (n + 76)
    | _ => s

/-- `OES_CBAR_34_alt`: `assert self.num_wide == 19` before anything else;
then `ntotal = 76`, `nelements = len(self.data) // ntotal`, decode, and
truncate `self.data = self.data[n:]`. -/
def OES_CBAR_34_alt (s : DecSt) : DecR :=
  if s.num_wide = 19 then
    (cbarLoop s.is_mag_phase s.nonlinear_factor s (s.data.length / 76) 0, none)
  else (s, some .assertError)

/-- The loop of `OES_CQUAD4_33_alt`: per iteration it slices only the
60-byte centroid record (comment `# 4*15=60`), emits
`add_new_eid('CQUAD4', dt, eid, 'CEN/4', fd1, sx1, sy1, txy1)` and
`add(dt, eid, 'CEN/4', fd2, sx2, sy2, txy2)`, and — because
`nNodes = 0` — the corner-node inner loop body never runs. -/
def quad33Loop (mp : Bool) (dt : Nat) (s : DecSt) : Nat → Nat → DecSt
  | 0, n => { s with data := s.data.drop n }
  | k + 1, n =>
    match words4 ((s.data.drop n).take 60) with
    | [eid_device, fd1, sx1r, sx1i, sy1r, sy1i, txy1r, txy1i,
       fd2, sx2r, sx2i, sy2r, sy2i, txy2r, txy2i] =>
      let eid := extract_eid eid_device dt
      quad33Loop mp dt
        { s with objCalls := s.objCalls ++
          [.newEid (some .cquad4) dt eid (some (.cen 4))
            [.raw fd1, mkc mp sx1r sx1i, mkc mp sy1r sy1i, mkc mp txy1r txy1i],
           .addCall dt eid (some (.cen 4))
            [.raw fd2, mkc mp sx2r sx2i, mkc mp sy2r sy2i, mkc mp txy2r txy2i]] }
        k (n + 60)
    | _ => s

/-- `OES_CQUAD4_33_alt`: `assert self.num_wide == 15`, then
`ntotal = 4 * (2 + 15 * 5)` (= 308) and
`nelements = len(self.data) // ntotal`, but each loop iteration consumes
only the 60-byte centroid record (`nNodes = 0`); finally
`self.data = self.data[n:]`. -/
def OES_CQUAD4_33_alt (s : DecSt) : DecR :=
  if s.num_wide = 15 then
    let ntotal := 4 * (2 + 15 * 5)
    (quad33Loop s.is_mag_phase s.nonlinear_factor s (s.data.length / ntotal) 0, none)
  else (s, some .assertError)

/-- The corner-node inner loop of `OES_CQUAD4_144_alt`: per corner, a
60-byte record `(grid, fd1, ..., txy2i)`, with
`addNewNode(dt, eid, grid, fd1, sx1, sy1, txy1)` then
`add(dt, eid, grid, fd2, sx2, sy2, txy2)`. -/
def quad144Nodes (mp : Bool) (dt eid : Nat) (s : DecSt) : Nat → Nat → DecSt
  | 0, _ => s
  | j + 1, n =>
    match words4 ((s.data.drop n).take 60) with
    | [grid, fd1, sx1r, sx1i, sy1r, sy1i, txy1r, txy1i,
       fd2, sx2r, sx2i, sy2r, sy2i, txy2r, txy2i] =>
      quad144Nodes mp dt eid
        { s with objCalls := s.objCalls ++
          [.newNode dt eid grid
            [.raw fd1, mkc mp sx1r sx1i, mkc mp sy1r sy1i, mkc mp txy1r txy1i],
           .addCall dt eid (some (.grid grid))
            [.raw fd2, mkc mp sx2r sx2i, mkc mp sy2r sy2i, mkc mp txy2r txy2i]] }
        j (n + 60)
    | _ => s

/-- The outer loop of `OES_CQUAD4_144_alt`: per element, an 8-byte
header `(eid_device, b'CEN/')`, a 60-byte centroid record labelled
`gridC = 'CEN/' + str(nNodes)`, then `nNodes` corner records. -/
def quad144Loop (mp : Bool) (dt nN : Nat) (en : EName) (s : DecSt) : Nat → Nat → DecSt
  | 0, n => { s with data := s.data.drop n }
  | k + 1, n =>
    match words4 ((s.data.drop n).take 8) with
    | [eid_device, _cen] =>
      let eid := extract_eid eid_device dt
      match words4 ((s.data.drop (n + 8)).take 60) with
      | [_grid, fd1, sx1r, sx1i, sy1r, sy1i, txy1r, txy1i,
         fd2, sx2r, sx2i, sy2r, sy2i, txy2r, txy2i] =>
        let s1 := { s with objCalls := s.objCalls ++
          [.newEid (some en) dt eid (some (.cen nN))
            [.raw fd1, mkc mp sx1r sx1i, mkc mp sy1r sy1i, mkc mp txy1r txy1i],
           .addCall dt eid (some (.cen nN))
            [.raw fd2, mkc mp sx2r sx2i, mkc mp sy2r sy2i, mkc mp txy2r txy2i]] }
        let s2 := quad144Nodes mp dt eid s1 nN (n + 68)
        quad144Loop mp dt nN en s2 k (n + 68 + 60 * nN)
      | _ => s
    | _ => s

/-- `OES_CQUAD4_144_alt`: dispatch on `self.element_type`
(144/64/82 → 308 bytes, 4 corners; 75/70 → 248 bytes, 3 corners;
anything else → `RuntimeError`), then
`assert ntotal == self.num_wide * 4, '... not nTotal=%s' % (..., nTotal)`.
The assert message interpolates the undefined name `nTotal` (the local
is spelled `ntotal`), so a width mismatch raises `NameError` — still
before any byte is consumed.  Then `nelements = len(self.data) // ntotal`
and the two-level loop; finally `self.data = self.data[n:]`. -/
def OES_CQUAD4_144_alt (s : DecSt) : DecR :=
  let disp : Option (Nat × Nat × EName) :=
    if s.element_type = 144 then some (308, 4, .cquad4)
    else if s.element_type = 64 then some (308, 4, .cquad8)
    else if s.element_type = 82 then some (308, 4, .cquad4)
    else if s.element_type = 75 then some (248, 3, .ctria6)
    else if s.element_type = 70 then some (248, 3, .ctriar)
    else none
  match disp with
  | none => (s, some .rtError)
  | some (ntotal, nN, en) =>
    if ntotal = s.num_wide * 4 then
      (quad144Loop s.is_mag_phase s.nonlinear_factor nN en s (s.data.length / ntotal) 0, none)
    else (s, some .nameError)

/-- The `while len(self.data) >= nTotal` loop of `OES_CQUAD4NL_90_alt`
(`nTotal = 100`), with the buffer length as fuel: per record, unpack the
id word and 24 raw float words (no complex conversion in this routine),
and forward the two 13-value `data` tuples.  The source unpacks the four
throw-away fields into a single repeatedly-assigned name `xxx`, so both
forwarded tuples carry the *last* of those four words (`xxd`). -/
def quad90Loop (dt : Nat) : Nat → DecSt → DecSt
  | 0, s => s
  | fuel + 1, s =>
    if 100 ≤ s.data.length then
      match words4 (s.data.take 100) with
      | [eid_device, fd1, sx1, sy1, _xxa, txy1, es1, eps1, ecs1, ex1, ey1,
         _xxb, exy1, fd2, sx2, sy2, _xxc, txy2, es2, eps2, ecs2, ex2, ey2,
         xxd, exy2] =>
        let eid := extract_eid eid_device dt
        quad90Loop dt fuel
          { s with
              data := s.data.drop 100,
              objCalls := s.objCalls ++
                [.newEidTup s.element_type dt
                  [eid, fd1, sx1, sy1, xxd, txy1, es1, eps1, ecs1, ex1, ey1,
                   xxd, exy1],
                 .addTup dt
                  [eid, fd2, sx2, sy2, xxd, txy2, es2, eps2, ecs2, ex2, ey2,
                   xxd, exy2]] }
      | _ => s
    else s

/-- `OES_CQUAD4NL_90_alt`: `assert self.num_wide == 25` right after the
format-start call, before any byte is consumed; then the while loop over
100-byte records, which retains any final partial record in
`self.data`. -/
def OES_CQUAD4NL_90_alt (s : DecSt) : DecR :=
  if s.num_wide = 25 then
    (quad90Loop s.nonlinear_factor s.data.length s, none)
  else (s, some .assertError)

/-- The while loop of `OES_CBUSH1D_40_alt` (`nTotal = 36`): per record,
unpack `(eid, fer, uer, aor, aer, fei, uei, aoi, aei)`, convert the four
(real, imag)-or-(magnitude, phase) pairs, and call
`add_new_eid(self.element_type, dt, eid, fe, ue, ao, ae)`. -/
def cbush1dLoop (mp : Bool) (dt : Nat) : Nat → DecSt → DecSt
  | 0, s => s
  | fuel + 1, s =>
    if 36 ≤ s.data.length then
      match words4 (s.data.take 36) with
      | [eid_device, fer, uer, aor, aer, fei, uei, aoi, aei] =>
        let eid := extract_eid eid_device dt
        cbush1dLoop mp dt fuel
          { s with
              data := s.data.drop 36,
              objCalls := s.objCalls ++
                [.newEidT s.element_type dt eid
                  [mkc mp fer fei, mkc mp uer uei, mkc mp aor aoi,
                   mkc mp aer aei]] }
      | _ => s
    else s

/-- `OES_CBUSH1D_40_alt`: `assert self.num_wide == 9` before any byte is
consumed; then the while loop over 36-byte records. -/
def OES_CBUSH1D_40_alt (s : DecSt) : DecR :=
  if s.num_wide = 9 then
    (cbush1dLoop s.is_mag_phase s.nonlinear_factor s.data.length s, none)
  else (s, some .assertError)

/-- The while loop of `OES_CBUSH_102_alt` (`nTotal = 52`): per record,
unpack the id word and twelve floats, convert the six pairs, and call
`add_new_eid(self.element_type, dt, eid, tx, ty, tz, rx, ry, rz)`. -/
def cbushLoop (mp : Bool) (dt : Nat) : Nat → DecSt → DecSt
  | 0, s => s
  | fuel + 1, s =>
    if 52 ≤ s.data.length then
      match words4 (s.data.take 52) with
      | [eid_device, txr, tyr, tzr, rxr, ryr, rzr,
         txi, tyi, tzi, rxi, ryi, rzi] =>
        let eid := extract_eid eid_device dt
        cbushLoop mp dt fuel
          { s with
              data := s.data.drop 52,
              objCalls := s.objCalls ++
                [.newEidT s.element_type dt eid
                  [mkc mp txr txi, mkc mp tyr tyi, mkc mp tzr tzi,
                   mkc mp rxr rxi, mkc mp ryr ryi, mkc mp rzr rzi]] }
      | _ => s
    else s

/-- `OES_CBUSH_102_alt`: `assert self.num_wide == 13` (its message
mislabels the expectation as 14, but the condition is 13) before any
byte is consumed; then the while loop over 52-byte records. -/
def OES_CBUSH_102_alt (s : DecSt) : DecR :=
  if s.num_wide = 13 then
    (cbushLoop s.is_mag_phase s.nonlinear_factor s.data.length s, none)
  else (s, some .assertError)

/-- The loop of `OES_CTRIA3_74_alt`: per 60-byte record, the same
15-field centroid layout as CQUAD4_33, labelled `'CEN/3'` and tagged
`'CTRIA3'`. -/
def ctria3Loop (mp : Bool) (dt : Nat) (s : DecSt) : Nat → Nat → DecSt
  | 0, n => { s with data := s.data.drop n }
  | k + 1, n =>
    match words4 ((s.data.drop n).take 60) with
    | [eid_device, fd1, sx1r, sx1i, sy1r, sy1i, txy1r, txy1i,
       fd2, sx2r, sx2i, sy2r, sy2i, txy2r, txy2i] =>
      let eid := extract_eid eid_device dt
      ctria3Loop mp dt
        { s with objCalls := s.objCalls ++
          [.newEid (some .ctria3) dt eid (some (.cen 3))
            [.raw fd1, mkc mp sx1r sx1i, mkc mp sy1r sy1i, mkc mp txy1r txy1i],
           .addCall dt eid (some (.cen 3))
            [.raw fd2, mkc mp sx2r sx2i, mkc mp sy2r sy2i, mkc mp txy2r txy2i]] }
        k (n + 60)
    | _ => s

/-- `OES_CTRIA3_74_alt`: `assert self.num_wide == 15` as its first
statement; then `nelements = len(self.data) // 60`, the decode loop, and
the final `self.data = self.data[n:]` truncation. -/
def OES_CTRIA3_74_alt (s : DecSt) : DecR :=
  if s.num_wide = 15 then
    (ctria3Loop s.is_mag_phase s.nonlinear_factor s (s.data.length / 60) 0, none)
  else (s, some .assertError)

/-! ## Concrete inputs used by counterexamples and evaluations -/

/-- A model with one node and one coordinate system (and one design
response so the optimization stage is observable). -/
def mC1 : Model := { nodes := [{ eid := 1 }], coords := [{ cid := 2 }] }

/-- A model exercising the constraint stage: one SPCADD, one SPC set,
one MPCADD, one MPC set. -/
def mC3 : Model :=
  { spcadds := [{ eid := 1 }], spcs := [[{ eid := 2 }]],
    mpcadds := [{ eid := 7 }], mpcs := [[{ eid := 9 }]] }

/-- A 12-byte buffer with a `num_wide` wildly inconsistent with the
CELAS/CROD record layout (3 words). -/
def sElas : DecSt := { data := List.replicate 12 0, num_wide := 999 }

/-- A 308-byte buffer for `OES_CQUAD4_33_alt` (its own `ntotal`). -/
def sQuad33 : DecSt := { data := List.replicate 308 0, num_wide := 15 }

/-- A 24-byte buffer (two of `OES_Rod1_alt`'s 12-byte records). -/
def sRod : DecSt := { data := List.replicate 24 0, num_wide := 5 }

/-! ## C10 -/

/-- C10: if the resolver's entry point is called with `xref=False`, no
resolution work is performed at all — the state (entity trace, aggregate
constraint objects, error counter, stored-error list, node-element map)
is returned unchanged and no stage runs, regardless of the other
`xref_*` toggle arguments. -/
theorem C10_xref_false_noop (m : Model) (st : XSt)
    (b1 b2 b3 b4 b5 b6 b7 b8 b9 : Bool) :
    cross_reference m st false b1 b2 b3 b4 b5 b6 b7 b8 b9 = (st, none) := by
  simp [cross_reference]

/-! ## C3 -/

/-- C3: the MPCADD branch of `_cross_reference_constraints` is *not*
symmetric to the SPCADD branch.  On a model with one SPCADD (id 1), one
SPC (id 2), one MPCADD (id 7) and one MPC (id 9): the SPC side is added
to the aggregate and cross-referenced, the MPCADD is added to the
aggregate, and then the buggy `mpc.cross_reference(mpcadd)` call raises
`UnboundLocalError` (`mpc` is a local of the later loop), so neither the
MPCADD nor any MPC is ever cross-referenced and the stage aborts. -/
theorem C3_mpcadd_unbound_local :
    cross_reference_constraints mC3 initXSt =
      ({ initXSt with
          spcObject := [1, 2],
          mpcObject := [7],
          trace := [(.spcaddC, 1), (.spcC, 2)] }, some .nameError) := by
  decide

/-! ## C7 -/

/-- C7 (amended): every decode routine that declares the width check —
`OES_CBAR_34_alt` (19), `OES_CQUAD4_33_alt` (15), `OES_CQUAD4NL_90_alt`
(25), `OES_CBUSH1D_40_alt` (9), `OES_CBUSH_102_alt` (13),
`OES_CTRIA3_74_alt` (15), and `OES_CQUAD4_144_alt`'s
`ntotal == num_wide * 4` check — fails fatally before reading or
consuming any bytes when the declared field count is inconsistent,
returning the decoder state (in particular `self.data`) unchanged: via
`AssertionError` everywhere except `OES_CQUAD4_144_alt`, whose failed
check raises `NameError` because the assert message interpolates the
undefined name `nTotal`. -/
theorem C7_width_checks (s : DecSt) :
    (s.num_wide ≠ 19 → OES_CBAR_34_alt s = (s, some .assertError)) ∧
    (s.num_wide ≠ 15 → OES_CQUAD4_33_alt s = (s, some .assertError)) ∧
    (s.num_wide ≠ 25 → OES_CQUAD4NL_90_alt s = (s, some .assertError)) ∧
    (s.num_wide ≠ 9 → OES_CBUSH1D_40_alt s = (s, some .assertError)) ∧
    (s.num_wide ≠ 13 → OES_CBUSH_102_alt s = (s, some .assertError)) ∧
    (s.num_wide ≠ 15 → OES_CTRIA3_74_alt s = (s, some .assertError)) ∧
    (s.element_type = 144 → 308 ≠ s.num_wide * 4 →
      OES_CQUAD4_144_alt s = (s, some .nameError)) := by
  refine ⟨?_, ?_, ?_, ?_, ?_, ?_, ?_⟩
  · intro h; simp [OES_CBAR_34_alt, h]
  · intro h; simp [OES_CQUAD4_33_alt, h]
  · intro h; simp [OES_CQUAD4NL_90_alt, h]
  · intro h; simp [OES_CBUSH1D_40_alt, h]
  · intro h; simp [OES_CBUSH_102_alt, h]
  · intro h; simp [OES_CTRIA3_74_alt, h]
  · intro h1 h2; simp [OES_CQUAD4_144_alt, h1, h2]

/-- Decoder state for the C7 witness: `num_wide = 999` is inconsistent
with every width-checked layout, and `element_type = 144` selects the
CQUAD4 branch of `OES_CQUAD4_144_alt`. -/
def sW7 : DecSt := { data := [0, 0, 0, 0], num_wide := 999, element_type := 144 }

/-- Witness for `C7_width_checks` at `sW7`: a plain-assert routine, a
while-loop routine, and the `NameError` of `OES_CQUAD4_144_alt`. -/
theorem C7_width_checks_witness :
    OES_CBAR_34_alt sW7 = (sW7, some .assertError) ∧
    OES_CQUAD4NL_90_alt sW7 = (sW7, some .assertError) ∧
    OES_CQUAD4_144_alt sW7 = (sW7, some .nameError) :=
  ⟨(C7_width_checks sW7).1 (by decide),
   (C7_width_checks sW7).2.2.1 (by decide),
   (C7_width_checks sW7).2.2.2.2.2.2 (by decide) (by decide)⟩

/-- C7 counterexample: `OES_Elas1_alt` never validates `self.num_wide`.
With `num_wide = 999` (inconsistent with its 3-word record layout) and a
12-byte buffer it raises nothing, consumes the full buffer, and emits a
sample — refuting "for every decode routine ... fails fatally via an
assertion before reading or consuming any bytes". -/
theorem C7_counterexample :
    OES_Elas1_alt sElas =
      ({ sElas with
          data := [],
          objCalls := [.newEid none 0 0 none [.cplx (.rect 0 0)]] }, none) := by
  decide

/-! ## C2 -/

set_option maxRecDepth 4000

/-- C2: two decode routines violate the chunking contract.
`OES_CQUAD4_33_alt` on a 308-byte buffer (one record by its own
`ntotal = 4*(2+15*5) = 308`; five records of `num_wide*4 = 60` bytes
plus 8 left over by the per-field reading it actually performs) consumes
only 60 bytes and leaves 248 residual bytes — matching neither reading
of `k*W` consumed / `R < W` retained.  `OES_Rod1_alt` on 24 bytes (two
of its 12-byte records) raises `NameError` (`nEntries` is undefined)
instead of decoding, consuming nothing. -/
theorem C2_chunking_violations :
    (OES_CQUAD4_33_alt sQuad33).2 = none ∧
    (OES_CQUAD4_33_alt sQuad33).1.data.length = 248 ∧
    (OES_CQUAD4_33_alt sQuad33).1.objCalls.length = 2 ∧
    OES_Rod1_alt sRod = (sRod, some .nameError) := by
  decide

/-! ## Tolerant-loop lemmas (shared by C5, C6, C9) -/

theorem andThen_assoc (r : StageR) (f g : XSt → StageR) :
    andThen (andThen r f) g = andThen r (fun st => andThen (f st) g) := by
  obtain ⟨st, o⟩ := r
  cases o <;> simp [andThen]

theorem tolerantLoop_append (c : Cat) (st : XSt) (l1 l2 : List Entity) :
    tolerantLoop c st (l1 ++ l2) =
      andThen (tolerantLoop c st l1) (fun st' => tolerantLoop c st' l2) := by
  induction l1 generalizing st with
  | nil => simp [tolerantLoop, andThen]
  | cons e rest ih =>
    simp only [List.cons_append, tolerantLoop, andThen_assoc]
    obtain ⟨st1, o1⟩ := tolerantOne c st e
    cases o1 <;> simp [andThen, ih]

/-- A tolerant loop over entities that all resolve successfully just
records one trace event per entity. -/
theorem tolerantLoop_clean (c : Cat) (st : XSt) (es : List Entity)
    (h : ∀ e ∈ es, e.xref = none) :
    tolerantLoop c st es =
      ({ st with trace := st.trace ++ es.map (fun e => (c, e.eid)) }, none) := by
  induction es generalizing st with
  | nil => simp [tolerantLoop]
  | cons e rest ih =>
    have he : e.xref = none := h e (by simp)
    rw [tolerantLoop, tolerantOne, he]
    simp only [andThen]
    rw [ih _ (fun x hx => h x (by simp [hx]))]
    simp

/-! ## C9 -/

/-- C9: the tolerant loop used by every tolerant stage (elements, rigid
elements, masses, mass properties, properties, materials,
material-dependency families, and the three load categories) catches
exactly `SyntaxError`, `RuntimeError`, `AssertionError`, `KeyError`,
`ValueError`: an exception in that set is recorded (entity id and
description appended, counter incremented) and the loop continues with
the remaining entities; an exception of any other type propagates
immediately out of the stage, leaving the state as it was. -/
theorem C9_tolerant_exception_filter (c : Cat) (st : XSt) (e : Entity)
    (exc : PyExc) (rest : List Entity) (h : e.xref = some exc) :
    (tolerated exc = true ↔
      exc = .synError ∨ exc = .rtError ∨ exc = .assertError ∨
      exc = .keyError ∨ exc = .valueError) ∧
    (tolerated exc = false → tolerantLoop c st (e :: rest) = (st, some exc)) ∧
    (tolerated exc = true →
      ∃ st', tolerantLoop c st (e :: rest) = tolerantLoop c st' rest ∧
        st'.stored_xref_errors = st.stored_xref_errors ++ [(e.eid, exc)] ∧
        st'.ixref_errors = st.ixref_errors + 1) := by
  refine ⟨by cases exc <;> simp [tolerated], ?_, ?_⟩
  · intro hf
    simp [tolerantLoop, tolerantOne, h, hf, andThen]
  · intro ht
    rw [tolerantLoop, tolerantOne, h]
    simp only [ht, if_true, andThen]
    refine ⟨_, rfl, ?_, ?_⟩ <;> split <;> simp

/-- Witness for `C9_tolerant_exception_filter`: a `TypeError` raised by
an element's `cross_reference` propagates out of the tolerant elements
loop. -/
theorem C9_witness :
    tolerantLoop .elemC initXSt [⟨5, some .typeError, none⟩] =
      (initXSt, some .typeError) :=
  (C9_tolerant_exception_filter .elemC initXSt ⟨5, some .typeError, none⟩
    .typeError [] rfl).2.1 rfl

theorem andThen_ok (st : XSt) (f : XSt → StageR) : andThen (st, none) f = f st := rfl

theorem andThen_err (st : XSt) (e : PyExc) (f : XSt → StageR) :
    andThen (st, some e) f = (st, some e) := rfl

theorem andThen_of_ok (r : StageR) (f : XSt → StageR) (h : r.2 = none) :
    andThen r f = f r.1 := by
  obtain ⟨st, o⟩ := r
  cases o with
  | none => rfl
  | some e => simp at h

/-- Projections of one tolerant iteration on an entity raising a
tolerated exception: no propagation, the error recorded, the counter
incremented, trace and threshold untouched. -/
theorem tolerantOne_tolerated (c : Cat) (st : XSt) (e : Entity) (exc : PyExc)
    (h : e.xref = some exc) (ht : tolerated exc = true) :
    (tolerantOne c st e).2 = none ∧
    (tolerantOne c st e).1.stored_xref_errors =
      st.stored_xref_errors ++ [(e.eid, exc)] ∧
    (tolerantOne c st e).1.ixref_errors = st.ixref_errors + 1 ∧
    (tolerantOne c st e).1.trace = st.trace ∧
    (tolerantOne c st e).1.nxref_errors = st.nxref_errors := by
  rw [tolerantOne, h]
  simp only [ht, if_true]
  split <;> simp

/-! ## C5 -/

/-- C5: running the tolerant element-resolution stage over elements
`pre ++ [bad] ++ post` (and rigid elements `rig`), where every entity in
`pre`, `post` and `rig` resolves and `bad` raises a recognized
(tolerated) structural error: the stage raises nothing, the other
entities all get their success events, exactly one `(entity,
description)` record naming `bad` is appended to the stored error list,
and the tolerated-error counter increases by exactly one. -/
theorem C5_fault_isolation (st : XSt) (m : Model)
    (pre post rig : List Entity) (bad : Entity) (exc : PyExc)
    (hm : m.elements = pre ++ bad :: post) (hr : m.rigidElements = rig)
    (hpre : ∀ e ∈ pre, e.xref = none) (hpost : ∀ e ∈ post, e.xref = none)
    (hrig : ∀ e ∈ rig, e.xref = none)
    (hbad : bad.xref = some exc) (htol : tolerated exc = true) :
    (cross_reference_elements m st).2 = none ∧
    (cross_reference_elements m st).1.stored_xref_errors =
      st.stored_xref_errors ++ [(bad.eid, exc)] ∧
    (cross_reference_elements m st).1.ixref_errors = st.ixref_errors + 1 ∧
    (cross_reference_elements m st).1.trace =
      st.trace ++ pre.map (fun e => (Cat.elemC, e.eid))
        ++ post.map (fun e => (Cat.elemC, e.eid))
        ++ rig.map (fun e => (Cat.rigidC, e.eid)) := by
  obtain ⟨h2, hst, hix, htr, -⟩ :=
    tolerantOne_tolerated .elemC
      { st with trace := st.trace ++ pre.map (fun e => (Cat.elemC, e.eid)) }
      bad exc hbad htol
  rw [cross_reference_elements, hm, hr, tolerantLoop_append,
    tolerantLoop_clean _ _ _ hpre, andThen_ok, tolerantLoop,
    andThen_of_ok _ _ h2, tolerantLoop_clean _ _ _ hpost, andThen_ok,
    tolerantLoop_clean _ _ _ hrig]
  refine ⟨rfl, ?_, ?_, ?_⟩ <;> simp [hst, hix, htr]

/-- Witness for `C5_fault_isolation`: three elements of which the middle
one raises `KeyError`, plus one rigid element. -/
theorem C5_fault_isolation_witness :
    (cross_reference_elements
      { elements := [⟨1, none, none⟩, ⟨2, some .keyError, none⟩, ⟨3, none, none⟩],
        rigidElements := [⟨4, none, none⟩] } initXSt).2 = none ∧
    (cross_reference_elements
      { elements := [⟨1, none, none⟩, ⟨2, some .keyError, none⟩, ⟨3, none, none⟩],
        rigidElements := [⟨4, none, none⟩] } initXSt).1.stored_xref_errors =
      [(2, PyExc.keyError)] ∧
    (cross_reference_elements
      { elements := [⟨1, none, none⟩, ⟨2, some .keyError, none⟩, ⟨3, none, none⟩],
        rigidElements := [⟨4, none, none⟩] } initXSt).1.ixref_errors = 1 ∧
    (cross_reference_elements
      { elements := [⟨1, none, none⟩, ⟨2, some .keyError, none⟩, ⟨3, none, none⟩],
        rigidElements := [⟨4, none, none⟩] } initXSt).1.trace =
      [(Cat.elemC, 1), (Cat.elemC, 3), (Cat.rigidC, 4)] := by
  simpa using
    C5_fault_isolation initXSt
      { elements := [⟨1, none, none⟩, ⟨2, some .keyError, none⟩, ⟨3, none, none⟩],
        rigidElements := [⟨4, none, none⟩] }
      [⟨1, none, none⟩] [⟨3, none, none⟩] [⟨4, none, none⟩]
      ⟨2, some .keyError, none⟩ .keyError rfl rfl (by decide) (by decide)
      (by decide) rfl rfl

/-! ## Cleanliness predicates and error counting (C1, C6) -/

/-- Every entity in the list resolves successfully. -/
def allOk (es : List Entity) : Bool := es.all (fun e => e.xref.isNone)

/-- Every entity in every list resolves successfully. -/
def allOkL (ess : List (List Entity)) : Bool := ess.all allOk

/-- Every coordinate's `cross_reference` and `setup` succeed. -/
def coordsOk (cs : List Coord) : Bool :=
  cs.all (fun c => c.xref.isNone && c.setup.isNone)

/-- Every entity either resolves or raises a tolerated exception. -/
def allTol (es : List Entity) : Bool :=
  es.all (fun e => match e.xref with
    | none => true
    | some exc => tolerated exc)

/-- `allTol` over a dict-of-lists collection. -/
def allTolL (ess : List (List Entity)) : Bool := ess.all allTol

/-- Number of entities in the list whose `cross_reference` raises. -/
def errCount (es : List Entity) : Nat := es.countP (fun e => e.xref.isSome)

/-- `errCount` over a dict-of-lists collection. -/
def errCountL (ess : List (List Entity)) : Nat := (ess.map errCount).sum

/-- Number of `pop_xref_errors()` calls made by a run of tolerated
errors: the counter goes from `i` to `i + k` (threshold `T`), popping on
each error whose new counter value exceeds `T`. -/
def popGain (T i k : Nat) : Nat := i + k - max T i

theorem popGain_zero (T i : Nat) : popGain T i 0 = 0 := by
  unfold popGain; omega

theorem popGain_add (T i k1 k2 : Nat) :
    popGain T i k1 + popGain T (i + k1) k2 = popGain T i (k1 + k2) := by
  unfold popGain; omega

theorem allOk_iff (es : List Entity) :
    allOk es = true ↔ ∀ e ∈ es, e.xref = none := by
  simp [allOk, List.all_eq_true, Option.isNone_iff_eq_none]

/-- A non-tolerant loop over entities that all resolve just records one
trace event per entity. -/
theorem plainLoop_clean (c : Cat) (st : XSt) (es : List Entity)
    (h : ∀ e ∈ es, e.xref = none) :
    plainLoop c st es =
      ({ st with trace := st.trace ++ es.map (fun e => (c, e.eid)) }, none) := by
  induction es generalizing st with
  | nil => simp [plainLoop]
  | cons e rest ih =>
    have he : e.xref = none := h e (by simp)
    rw [plainLoop, he, ih _ (fun x hx => h x (by simp [hx]))]
    simp

theorem plainLoops_clean (c : Cat) (st : XSt) (ess : List (List Entity))
    (h : ∀ es ∈ ess, ∀ e ∈ es, e.xref = none) :
    plainLoops c st ess =
      ({ st with
          trace := st.trace ++
            (ess.map (fun es => es.map (fun e => (c, e.eid)))).flatten }, none) := by
  induction ess generalizing st with
  | nil => simp [plainLoops]
  | cons es rest ih =>
    rw [plainLoops, plainLoop_clean _ _ _ (h es (by simp)), andThen_ok,
      ih _ (fun l hl x hx => h l (by simp [hl]) x hx)]
    simp

/-- The SPC-side aggregate loop over clean entities: ids appended to
`spcObject`, one trace event each. -/
theorem aggLoop_clean_spc (c : Cat) (st : XSt) (es : List Entity)
    (h : ∀ e ∈ es, e.xref = none) :
    aggLoop c false st es =
      ({ st with
          spcObject := st.spcObject ++ es.map (fun e => e.eid),
          trace := st.trace ++ es.map (fun e => (c, e.eid)) }, none) := by
  induction es generalizing st with
  | nil => simp [aggLoop]
  | cons e rest ih =>
    have he : e.xref = none := h e (by simp)
    rw [aggLoop]
    simp only [if_false, Bool.false_eq_true, reduceIte, he]
    rw [ih _ (fun x hx => h x (by simp [hx]))]
    simp

/-- The MPC-side aggregate loop over clean entities. -/
theorem aggLoop_clean_mpc (c : Cat) (st : XSt) (es : List Entity)
    (h : ∀ e ∈ es, e.xref = none) :
    aggLoop c true st es =
      ({ st with
          mpcObject := st.mpcObject ++ es.map (fun e => e.eid),
          trace := st.trace ++ es.map (fun e => (c, e.eid)) }, none) := by
  induction es generalizing st with
  | nil => simp [aggLoop]
  | cons e rest ih =>
    have he : e.xref = none := h e (by simp)
    rw [aggLoop]
    simp only [if_true, reduceIte, he]
    rw [ih _ (fun x hx => h x (by simp [hx]))]
    simp

theorem aggLoops_clean_spc (c : Cat) (st : XSt) (ess : List (List Entity))
    (h : ∀ es ∈ ess, ∀ e ∈ es, e.xref = none) :
    aggLoops c false st ess =
      ({ st with
          spcObject := st.spcObject ++
            (ess.map (fun es => es.map (fun e => e.eid))).flatten,
          trace := st.trace ++
            (ess.map (fun es => es.map (fun e => (c, e.eid)))).flatten }, none) := by
  induction ess generalizing st with
  | nil => simp [aggLoops]
  | cons es rest ih =>
    rw [aggLoops, aggLoop_clean_spc _ _ _ (h es (by simp)), andThen_ok,
      ih _ (fun l hl x hx => h l (by simp [hl]) x hx)]
    simp

theorem aggLoops_clean_mpc (c : Cat) (st : XSt) (ess : List (List Entity))
    (h : ∀ es ∈ ess, ∀ e ∈ es, e.xref = none) :
    aggLoops c true st ess =
      ({ st with
          mpcObject := st.mpcObject ++
            (ess.map (fun es => es.map (fun e => e.eid))).flatten,
          trace := st.trace ++
            (ess.map (fun es => es.map (fun e => (c, e.eid)))).flatten }, none) := by
  induction ess generalizing st with
  | nil => simp [aggLoops]
  | cons es rest ih =>
    rw [aggLoops, aggLoop_clean_mpc _ _ _ (h es (by simp)), andThen_ok,
      ih _ (fun l hl x hx => h l (by simp [hl]) x hx)]
    simp

/-! ## Counter invariants of the tolerant loops (C6) -/

/-- Invariant of one tolerant loop under all-tolerated outcomes: it
never propagates, the error counter grows by the number of failing
entities, the threshold is untouched, and `pop_xref_errors` is invoked
once for every error whose new counter value exceeds the threshold. -/
theorem tolerantLoop_tol (c : Cat) (st : XSt) (es : List Entity)
    (h : allTol es = true) :
    (tolerantLoop c st es).2 = none ∧
    (tolerantLoop c st es).1.ixref_errors = st.ixref_errors + errCount es ∧
    (tolerantLoop c st es).1.nxref_errors = st.nxref_errors ∧
    (tolerantLoop c st es).1.pop_calls =
      st.pop_calls + popGain st.nxref_errors st.ixref_errors (errCount es) := by
  induction es generalizing st with
  | nil =>
    refine ⟨rfl, by simp [tolerantLoop, errCount], rfl, ?_⟩
    simp [tolerantLoop, errCount, popGain_zero]
  | cons e rest ih =>
    rw [allTol, List.all_cons, Bool.and_eq_true] at h
    obtain ⟨he, hrest⟩ := h
    rw [tolerantLoop]
    cases hx : e.xref with
    | none =>
      rw [tolerantOne, hx, andThen_ok]
      obtain ⟨i1, i2, i3, i4⟩ := ih _ hrest
      refine ⟨i1, ?_, ?_, ?_⟩ <;>
        simp_all [errCount, List.countP_cons, hx]
    | some exc =>
      rw [hx] at he
      have he' : tolerated exc = true := he
      simp only [tolerantOne, hx, he', reduceIte, andThen_ok]
      have hcnt : errCount (e :: rest) = errCount rest + 1 := by
        simp [errCount, List.countP_cons, hx]
      by_cases hc : st.ixref_errors + 1 > st.nxref_errors
      · rw [if_pos hc]
        obtain ⟨i1, i2, i3, i4⟩ := ih _ hrest
        refine ⟨i1, by rw [i2]; simp; omega, by rw [i3], ?_⟩
        rw [i4, hcnt]
        simp only [popGain]
        omega
      · rw [if_neg hc]
        obtain ⟨i1, i2, i3, i4⟩ := ih _ hrest
        refine ⟨i1, by rw [i2]; simp; omega, by rw [i3], ?_⟩
        rw [i4, hcnt]
        simp only [popGain]
        omega

/-- `tolerantLoop_tol` lifted to dict-of-lists collections. -/
theorem tolerantLoops_tol (c : Cat) (st : XSt) (ess : List (List Entity))
    (h : allTolL ess = true) :
    (tolerantLoops c st ess).2 = none ∧
    (tolerantLoops c st ess).1.ixref_errors = st.ixref_errors + errCountL ess ∧
    (tolerantLoops c st ess).1.nxref_errors = st.nxref_errors ∧
    (tolerantLoops c st ess).1.pop_calls =
      st.pop_calls + popGain st.nxref_errors st.ixref_errors (errCountL ess) := by
  induction ess generalizing st with
  | nil =>
    refine ⟨rfl, by simp [tolerantLoops, errCountL], rfl, ?_⟩
    simp [tolerantLoops, errCountL, popGain_zero]
  | cons es rest ih =>
    rw [allTolL, List.all_cons, Bool.and_eq_true] at h
    obtain ⟨he, hrest⟩ := h
    rw [tolerantLoops]
    obtain ⟨l1, l2, l3, l4⟩ := tolerantLoop_tol c st es he
    rw [andThen_of_ok _ _ l1]
    obtain ⟨i1, i2, i3, i4⟩ := ih _ hrest
    have hcnt : errCountL (es :: rest) = errCount es + errCountL rest := by
      simp [errCountL]
    refine ⟨i1, ?_, by rw [i3, l3], ?_⟩
    · rw [i2, l2, hcnt]; omega
    · rw [i4, l4, l3, l2, hcnt, ← popGain_add]; omega

/-! ## Stage-level counter bookkeeping (C6) -/

/-- `f` runs to completion from every state, adds `k` tolerated errors
to the running counter and the corresponding number of
`pop_xref_errors()` calls, and leaves the threshold alone. -/
def StageCounters (f : XSt → StageR) (k : Nat) : Prop :=
  ∀ st, (f st).2 = none ∧
    (f st).1.ixref_errors = st.ixref_errors + k ∧
    (f st).1.nxref_errors = st.nxref_errors ∧
    (f st).1.pop_calls = st.pop_calls + popGain st.nxref_errors st.ixref_errors k

theorem counters_comp {f g : XSt → StageR} {k1 k2 : Nat}
    (hf : StageCounters f k1) (hg : StageCounters g k2) :
    StageCounters (fun st => andThen (f st) g) (k1 + k2) := by
  intro st
  dsimp only
  obtain ⟨f1, f2, f3, f4⟩ := hf st
  obtain ⟨g1, g2, g3, g4⟩ := hg (f st).1
  rw [andThen_of_ok _ _ f1]
  refine ⟨g1, ?_, by rw [g3, f3], ?_⟩
  · rw [g2, f2]; omega
  · rw [g4, f4, f3, f2, ← popGain_add]; omega

theorem frame0_counters {f : XSt → StageR}
    (h : ∀ st, (f st).2 = none ∧ (f st).1.ixref_errors = st.ixref_errors ∧
      (f st).1.nxref_errors = st.nxref_errors ∧
      (f st).1.pop_calls = st.pop_calls) :
    StageCounters f 0 := by
  intro st
  obtain ⟨a, b, c, d⟩ := h st
  exact ⟨a, by rw [b]; omega, c, by rw [d, popGain_zero]; omega⟩

theorem plainLoop_counters (c : Cat) (es : List Entity)
    (h : ∀ e ∈ es, e.xref = none) :
    StageCounters (fun st => plainLoop c st es) 0 :=
  frame0_counters (fun st => by
    rw [plainLoop_clean c st es h]; exact ⟨rfl, rfl, rfl, rfl⟩)

theorem plainLoops_counters (c : Cat) (ess : List (List Entity))
    (h : ∀ es ∈ ess, ∀ e ∈ es, e.xref = none) :
    StageCounters (fun st => plainLoops c st ess) 0 :=
  frame0_counters (fun st => by
    rw [plainLoops_clean c st ess h]; exact ⟨rfl, rfl, rfl, rfl⟩)

theorem aggLoop_counters (c : Cat) (toMpc : Bool) (es : List Entity)
    (h : ∀ e ∈ es, e.xref = none) :
    StageCounters (fun st => aggLoop c toMpc st es) 0 :=
  frame0_counters (fun st => by
    cases toMpc
    · rw [aggLoop_clean_spc c st es h]; exact ⟨rfl, rfl, rfl, rfl⟩
    · rw [aggLoop_clean_mpc c st es h]; exact ⟨rfl, rfl, rfl, rfl⟩)

theorem aggLoops_counters (c : Cat) (toMpc : Bool) (ess : List (List Entity))
    (h : ∀ es ∈ ess, ∀ e ∈ es, e.xref = none) :
    StageCounters (fun st => aggLoops c toMpc st ess) 0 :=
  frame0_counters (fun st => by
    cases toMpc
    · rw [aggLoops_clean_spc c st ess h]; exact ⟨rfl, rfl, rfl, rfl⟩
    · rw [aggLoops_clean_mpc c st ess h]; exact ⟨rfl, rfl, rfl, rfl⟩)

/-- Elements whose slots are all live-or-`None` (no raw integer ids). -/
def noRaw (es : List Entity) : Bool :=
  es.all (fun e => match e.nodes with
    | none => true
    | some l => l.all (fun s => match s with
      | some (NodeRef.raw _) => false
      | _ => true))

theorem addElemNodes_some (eid : Nat) (l : List (Option NodeRef))
    (h : l.all (fun s => match s with
      | some (NodeRef.raw _) => false
      | _ => true) = true) :
    ∀ acc, ∃ acc', addElemNodes eid acc l = some acc' := by
  induction l with
  | nil => exact fun acc => ⟨acc, rfl⟩
  | cons s rest ih =>
    rw [List.all_cons, Bool.and_eq_true] at h
    intro acc
    cases s with
    | none => simpa [addElemNodes] using ih h.2 acc
    | some nr =>
      cases nr with
      | live nid => simpa [addElemNodes] using ih h.2 (addToNode nid eid acc)
      | raw i => simp at h

theorem buildNodeElems_some (es : List Entity) (h : noRaw es = true) :
    ∀ acc, ∃ mp, buildNodeElems acc es = some mp := by
  induction es with
  | nil => exact fun acc => ⟨acc, rfl⟩
  | cons e rest ih =>
    rw [noRaw, List.all_cons, Bool.and_eq_true] at h
    intro acc
    cases hn : e.nodes with
    | none => simpa [buildNodeElems, hn] using ih h.2 acc
    | some l =>
      rw [hn] at h
      obtain ⟨acc', hacc⟩ := addElemNodes_some e.eid l h.1 acc
      have := ih h.2 acc'
      simpa [buildNodeElems, hn, hacc] using this

theorem nwe_counters (m : Model) (h : noRaw m.elements = true) :
    StageCounters (xref_nodes_with_elements_st m) 0 :=
  frame0_counters (fun st => by
    obtain ⟨mp, hmp⟩ := buildNodeElems_some m.elements h []
    rw [xref_nodes_with_elements_st, hmp]
    exact ⟨rfl, rfl, rfl, rfl⟩)

theorem nodes_counters (m : Model) (h : ∀ e ∈ m.nodes, e.xref = none) :
    StageCounters (xref_nodes_st m) 0 :=
  counters_comp (plainLoop_counters .nodeC m.nodes h)
    (frame0_counters (fun st => by
      cases hsp : m.spoints <;> simp [hsp]))

theorem coords_counters (m : Model) (h : coordsOk m.coords = true) :
    StageCounters (xref_coords_st m) 0 := by
  simp only [coordsOk, List.all_eq_true, Bool.and_eq_true,
    Option.isNone_iff_eq_none] at h
  refine counters_comp
    (plainLoop_counters .coordC _ ?_) (plainLoop_counters .setupC _ ?_) <;>
  · intro e he
    rw [List.mem_map] at he
    obtain ⟨c, hc, rfl⟩ := he
    first
    | exact (h c hc).1
    | exact (h c hc).2

theorem elements_counters (m : Model)
    (h1 : allTol m.elements = true) (h2 : allTol m.rigidElements = true) :
    StageCounters (cross_reference_elements m)
      (errCount m.elements + errCount m.rigidElements) :=
  counters_comp (fun st => tolerantLoop_tol .elemC st m.elements h1)
    (fun st => tolerantLoop_tol .rigidC st m.rigidElements h2)

theorem properties_counters (m : Model) (h : allTol m.properties = true) :
    StageCounters (cross_reference_properties m) (errCount m.properties) :=
  fun st => tolerantLoop_tol .propC st m.properties h

theorem masses_counters (m : Model)
    (h1 : allTol m.masses = true) (h2 : allTol m.properties_mass = true) :
    StageCounters (cross_reference_masses m)
      (errCount m.masses + errCount m.properties_mass) :=
  counters_comp (fun st => tolerantLoop_tol .massC st m.masses h1)
    (fun st => tolerantLoop_tol .pmassC st m.properties_mass h2)

theorem materials_counters (m : Model)
    (h1 : allTol m.materials = true) (h2 : allTolL m.material_deps = true) :
    StageCounters (cross_reference_materials m)
      (errCount m.materials + errCountL m.material_deps) :=
  counters_comp (fun st => tolerantLoop_tol .matC st m.materials h1)
    (fun st => tolerantLoops_tol .matdepC st m.material_deps h2)

theorem loads_counters (m : Model)
    (h1 : allTolL m.loads = true) (h2 : allTolL m.dloads = true)
    (h3 : allTolL m.dload_entries = true) :
    StageCounters (cross_reference_loads m)
      (errCountL m.loads + (errCountL m.dloads + errCountL m.dload_entries)) :=
  counters_comp (fun st => tolerantLoops_tol .loadC st m.loads h1)
    (counters_comp (fun st => tolerantLoops_tol .dloadC st m.dloads h2)
      (fun st => tolerantLoops_tol .dloadeC st m.dload_entries h3))

theorem aero_counters (m : Model)
    (h1 : ∀ e ∈ m.caeros, e.xref = none) (h2 : ∀ e ∈ m.paeros, e.xref = none)
    (h3 : ∀ e ∈ m.splines, e.xref = none) (h4 : ∀ e ∈ m.aecomps, e.xref = none)
    (h5 : ∀ e ∈ m.aelists, e.xref = none) (h6 : ∀ e ∈ m.aeparams, e.xref = none)
    (h7 : ∀ e ∈ m.aestats, e.xref = none) (h8 : ∀ e ∈ m.aesurfs, e.xref = none) :
    StageCounters (cross_reference_aero m) 0 :=
  counters_comp (plainLoop_counters .caeroC _ h1)
    (counters_comp (plainLoop_counters .paeroC _ h2)
      (counters_comp (plainLoop_counters .splineC _ h3)
        (counters_comp (plainLoop_counters .aecompC _ h4)
          (counters_comp (plainLoop_counters .aelistC _ h5)
            (counters_comp (plainLoop_counters .aeparamC _ h6)
              (counters_comp (plainLoop_counters .aestatC _ h7)
                (plainLoop_counters .aesurfC _ h8)))))))

theorem constraints_counters (m : Model)
    (h1 : ∀ e ∈ m.spcadds, e.xref = none)
    (h2 : ∀ es ∈ m.spcs, ∀ e ∈ es, e.xref = none)
    (h3 : m.mpcadds = [])
    (h4 : ∀ es ∈ m.mpcs, ∀ e ∈ es, e.xref = none)
    (h5 : ∀ e ∈ m.suport, e.xref = none)
    (h6 : ∀ e ∈ m.suport1, e.xref = none)
    (h7 : ∀ e ∈ m.se_suport, e.xref = none) :
    StageCounters (cross_reference_constraints m) 0 :=
  counters_comp (aggLoop_counters .spcaddC false _ h1)
    (counters_comp (aggLoops_counters .spcC false _ h2)
      (counters_comp (frame0_counters (fun st => by rw [h3]; exact ⟨rfl, rfl, rfl, rfl⟩))
        (counters_comp (aggLoops_counters .mpcC true _ h4)
          (counters_comp (plainLoop_counters .suportC _ h5)
            (counters_comp (plainLoop_counters .suport1C _ h6)
              (plainLoop_counters .sesuportC _ h7))))))

theorem sets_counters (m : Model)
    (h1 : ∀ e ∈ m.asets, e.xref = none) (h2 : ∀ e ∈ m.bsets, e.xref = none)
    (h3 : ∀ e ∈ m.csets, e.xref = none) (h4 : ∀ e ∈ m.qsets, e.xref = none)
    (h5 : ∀ es ∈ m.usets, ∀ e ∈ es, e.xref = none)
    (h6 : ∀ e ∈ m.se_sets, e.xref = none) (h7 : ∀ e ∈ m.se_bsets, e.xref = none)
    (h8 : ∀ e ∈ m.se_csets, e.xref = none) (h9 : ∀ e ∈ m.se_qsets, e.xref = none)
    (h10 : ∀ e ∈ m.se_usets, e.xref = none) :
    StageCounters (cross_reference_sets m) 0 :=
  counters_comp (plainLoop_counters .asetC _ h1)
    (counters_comp (plainLoop_counters .bsetC _ h2)
      (counters_comp (plainLoop_counters .csetC _ h3)
        (counters_comp (plainLoop_counters .qsetC _ h4)
          (counters_comp (plainLoops_counters .usetC _ h5)
            (counters_comp (plainLoop_counters .sesetC _ h6)
              (counters_comp (plainLoop_counters .sebsetC _ h7)
                (counters_comp (plainLoop_counters .secsetC _ h8)
                  (counters_comp (plainLoop_counters .seqsetC _ h9)
                    (plainLoop_counters .seusetC _ h10)))))))))

theorem optimization_counters (m : Model)
    (h1 : ∀ e ∈ m.dresps, e.xref = none) (h2 : ∀ e ∈ m.dconstrs, e.xref = none) :
    StageCounters (cross_reference_optimization m) 0 :=
  counters_comp (plainLoop_counters .drespC _ h1)
    (plainLoop_counters .dconstrC _ h2)

/-! ## C6 -/

/-- All collections resolved by the non-tolerant stages succeed, the
node-element linkage has no raw node ids, and `mpcadds` is empty (any
MPCADD aborts the whole pass through the `UnboundLocalError` of C3). -/
def cleanNonTolerant (m : Model) : Bool :=
  allOk m.nodes && coordsOk m.coords && noRaw m.elements &&
  allOk m.caeros && allOk m.paeros && allOk m.splines && allOk m.aecomps &&
  allOk m.aelists && allOk m.aeparams && allOk m.aestats && allOk m.aesurfs &&
  allOk m.spcadds && allOkL m.spcs && m.mpcadds.isEmpty && allOkL m.mpcs &&
  allOk m.suport && allOk m.suport1 && allOk m.se_suport &&
  allOk m.asets && allOk m.bsets && allOk m.csets && allOk m.qsets &&
  allOkL m.usets && allOk m.se_sets && allOk m.se_bsets && allOk m.se_csets &&
  allOk m.se_qsets && allOk m.se_usets && allOk m.dresps && allOk m.dconstrs

/-- Every entity of every tolerant-stage collection either resolves or
raises a tolerated exception. -/
def allTolM (m : Model) : Bool :=
  allTol m.elements && allTol m.rigidElements && allTol m.properties &&
  allTol m.masses && allTol m.properties_mass && allTol m.materials &&
  allTolL m.material_deps && allTolL m.loads && allTolL m.dloads &&
  allTolL m.dload_entries

/-- Total number of tolerated errors over all tolerant stages of a
full pass. -/
def totalErrs (m : Model) : Nat :=
  errCount m.elements + errCount m.rigidElements + errCount m.properties +
  errCount m.masses + errCount m.properties_mass + errCount m.materials +
  errCountL m.material_deps + errCountL m.loads + errCountL m.dloads +
  errCountL m.dload_entries

theorem allOkL_iff (ess : List (List Entity)) :
    allOkL ess = true ↔ ∀ es ∈ ess, ∀ e ∈ es, e.xref = none := by
  simp [allOkL, List.all_eq_true, allOk_iff]

theorem counters_congr {f : XSt → StageR} {k1 k2 : Nat}
    (h : StageCounters f k1) (hk : k1 = k2) : StageCounters f k2 := hk ▸ h

/-- C6: with the tolerated-error threshold field set to `T`, a full
resolution pass (all toggles on) whose tolerant stages raise only
tolerated errors and whose non-tolerant stages are all clean completes
without raising; if exactly `T + 1` tolerated errors occur across all
tolerant stages, `pop_xref_errors` is invoked exactly once (by the
`T+1`-th error); with `T` or fewer errors it is never invoked.  The
counter is the single `_ixref_errors` running total shared by every
tolerant category of the pass. -/
theorem C6_threshold (m : Model) (T : Nat)
    (hclean : cleanNonTolerant m = true) (htol : allTolM m = true) :
    (cross_reference m { nxref_errors := T }
        true true true true true true true true true true).2 = none ∧
    (totalErrs m = T + 1 →
      (cross_reference m { nxref_errors := T }
        true true true true true true true true true true).1.pop_calls = 1) ∧
    (totalErrs m ≤ T →
      (cross_reference m { nxref_errors := T }
        true true true true true true true true true true).1.pop_calls = 0) := by
  simp only [cleanNonTolerant, Bool.and_eq_true, and_assoc] at hclean
  obtain ⟨hn, hc, hraw, ha1, ha2, ha3, ha4, ha5, ha6, ha7, ha8, hs1, hs2,
    hmp, hs3, hsu1, hsu2, hsu3, hb1, hb2, hb3, hb4, hb5, hse1, hse2, hse3,
    hse4, hse5, hd1, hd2⟩ := hclean
  simp only [allTolM, Bool.and_eq_true, and_assoc] at htol
  obtain ⟨t1, t2, t3, t4, t5, t6, t7, t8, t9, t10⟩ := htol
  rw [allOk_iff] at hn ha1 ha2 ha3 ha4 ha5 ha6 ha7 ha8 hs1 hsu1 hsu2 hsu3
  rw [allOk_iff] at hb1 hb2 hb3 hb4 hse1 hse2 hse3 hse4 hse5 hd1 hd2
  rw [allOkL_iff] at hs2 hs3 hb5
  rw [List.isEmpty_iff] at hmp
  have H : StageCounters
      (fun st => cross_reference m st
        true true true true true true true true true true) (totalErrs m) := by
    have H0 := counters_comp (nodes_counters m hn)
        (counters_comp (coords_counters m hc)
          (counters_comp (elements_counters m t1 t2)
            (counters_comp (nwe_counters m hraw)
              (counters_comp (properties_counters m t3)
                (counters_comp (masses_counters m t4 t5)
                  (counters_comp (materials_counters m t6 t7)
                    (counters_comp
                      (aero_counters m ha1 ha2 ha3 ha4 ha5 ha6 ha7 ha8)
                      (counters_comp
                        (constraints_counters m hs1 hs2 hmp hs3 hsu1 hsu2 hsu3)
                        (counters_comp (loads_counters m t8 t9 t10)
                          (counters_comp
                            (sets_counters m hb1 hb2 hb3 hb4 hb5 hse1 hse2
                              hse3 hse4 hse5)
                            (optimization_counters m hd1 hd2)))))))))))
    exact counters_congr H0 (by simp only [totalErrs]; omega)
  obtain ⟨r1, r2, r3, r4⟩ := H { nxref_errors := T }
  refine ⟨r1, ?_, ?_⟩
  · intro he
    rw [r4]
    dsimp only
    unfold popGain
    omega
  · intro he
    rw [r4]
    dsimp only
    unfold popGain
    omega

/-- Witness for `C6_threshold`: threshold 2, with three tolerated
errors spread over two different tolerant stages (two elements, one
load), triggering exactly one `pop_xref_errors` call. -/
theorem C6_threshold_witness :
    cleanNonTolerant
      { elements := [⟨1, some .rtError, none⟩, ⟨2, some .keyError, none⟩],
        loads := [[⟨3, some .valueError, none⟩]] } = true ∧
    allTolM
      { elements := [⟨1, some .rtError, none⟩, ⟨2, some .keyError, none⟩],
        loads := [[⟨3, some .valueError, none⟩]] } = true ∧
    totalErrs
      { elements := [⟨1, some .rtError, none⟩, ⟨2, some .keyError, none⟩],
        loads := [[⟨3, some .valueError, none⟩]] } = 2 + 1 ∧
    (cross_reference
      { elements := [⟨1, some .rtError, none⟩, ⟨2, some .keyError, none⟩],
        loads := [[⟨3, some .valueError, none⟩]] }
      { nxref_errors := 2 }
      true true true true true true true true true true).1.pop_calls = 1 :=
  ⟨by decide, by decide, by decide,
    (C6_threshold
      { elements := [⟨1, some .rtError, none⟩, ⟨2, some .keyError, none⟩],
        loads := [[⟨3, some .valueError, none⟩]] } 2
      (by decide) (by decide)).2.1 (by decide)⟩

/-! ## C8: node-element linkage -/

theorem lookupD_addToNode (acc : List (Nat × List Nat)) (nid eid n' : Nat) :
    lookupD (addToNode nid eid acc) n' =
      if n' = nid then
        (if eid ∈ lookupD acc nid then lookupD acc nid
         else lookupD acc nid ++ [eid])
      else lookupD acc n' := by
  induction acc with
  | nil =>
    by_cases h : n' = nid
    · subst h
      simp [addToNode, lookupD]
    · have h2 : ¬ nid = n' := fun hh => h hh.symm
      simp [addToNode, lookupD, h, h2]
  | cons p rest ih =>
    obtain ⟨n, es⟩ := p
    by_cases hn : n = nid
    · subst hn
      by_cases h' : n' = n
      · subst h'
        simp [addToNode, lookupD]
      · have h2 : ¬ n = n' := fun hh => h' hh.symm
        simp [addToNode, lookupD, h', h2]
    · have hn2 : ¬ nid = n := fun hh => hn hh.symm
      by_cases h' : n' = n
      · subst h'
        have h3 : ¬ n' = nid := fun hh => hn2 hh.symm
        simp [addToNode, lookupD, hn, hn2, h3]
      · have h2 : ¬ n = n' := fun hh => h' hh.symm
        simp [addToNode, lookupD, hn, hn2, h2, ih]

theorem mem_lookupD_addToNode (acc : List (Nat × List Nat))
    (nid eid n' a : Nat) :
    a ∈ lookupD (addToNode nid eid acc) n' ↔
      (n' = nid ∧ a = eid) ∨ a ∈ lookupD acc n' := by
  rw [lookupD_addToNode]
  by_cases h : n' = nid
  · rw [if_pos h]
    subst h
    by_cases hm : eid ∈ lookupD acc n'
    · rw [if_pos hm]
      constructor
      · exact fun ha => Or.inr ha
      · rintro (⟨-, rfl⟩ | ha)
        · exact hm
        · exact ha
    · rw [if_neg hm, List.mem_append, List.mem_singleton]
      constructor
      · rintro (ha | rfl)
        · exact Or.inr ha
        · exact Or.inl ⟨rfl, rfl⟩
      · rintro (⟨-, rfl⟩ | ha)
        · exact Or.inr rfl
        · exact Or.inl ha
  · rw [if_neg h]
    constructor
    · exact fun ha => Or.inr ha
    · rintro (⟨hh, -⟩ | ha)
      · exact absurd hh h
      · exact ha

theorem mem_addElemNodes (eid : Nat) (l : List (Option NodeRef)) :
    ∀ acc acc', addElemNodes eid acc l = some acc' →
      ∀ a n', (a ∈ lookupD acc' n' ↔
        (a = eid ∧ some (NodeRef.live n') ∈ l) ∨ a ∈ lookupD acc n') := by
  induction l with
  | nil =>
    intro acc acc' h a n'
    rw [addElemNodes] at h
    cases h
    simp
  | cons s rest ih =>
    intro acc acc' h a n'
    cases s with
    | none =>
      rw [addElemNodes] at h
      rw [ih acc acc' h a n']
      simp
    | some nr =>
      cases nr with
      | live nid =>
        rw [addElemNodes] at h
        rw [ih _ acc' h a n', mem_lookupD_addToNode]
        simp only [List.mem_cons, Option.some.injEq, NodeRef.live.injEq]
        constructor
        · rintro (⟨rfl, hmem⟩ | ⟨rfl, rfl⟩ | ha)
          · exact Or.inl ⟨rfl, Or.inr hmem⟩
          · exact Or.inl ⟨rfl, Or.inl rfl⟩
          · exact Or.inr ha
        · rintro (⟨rfl, rfl | hmem⟩ | ha)
          · exact Or.inr (Or.inl ⟨rfl, rfl⟩)
          · exact Or.inl ⟨rfl, hmem⟩
          · exact Or.inr (Or.inr ha)
      | raw i =>
        rw [addElemNodes] at h
        cases h

theorem mem_buildNodeElems (es : List Entity) :
    ∀ acc mp, buildNodeElems acc es = some mp →
      ∀ a n', (a ∈ lookupD mp n' ↔
        (∃ e ∈ es, e.eid = a ∧ ∃ l, e.nodes = some l ∧
          some (NodeRef.live n') ∈ l) ∨ a ∈ lookupD acc n') := by
  induction es with
  | nil =>
    intro acc mp h a n'
    rw [buildNodeElems] at h
    cases h
    simp
  | cons e rest ih =>
    intro acc mp h a n'
    cases hn : e.nodes with
    | none =>
      simp only [buildNodeElems, hn] at h
      rw [ih acc mp h a n']
      constructor
      · rintro (⟨x, hx, hprops⟩ | ha)
        · exact Or.inl ⟨x, List.mem_cons_of_mem _ hx, hprops⟩
        · exact Or.inr ha
      · rintro (⟨x, hx, rfl, l, hl, hmem⟩ | ha)
        · rcases List.mem_cons.mp hx with rfl | hx'
          · rw [hn] at hl; cases hl
          · exact Or.inl ⟨x, hx', rfl, l, hl, hmem⟩
        · exact Or.inr ha
    | some l =>
      simp only [buildNodeElems, hn] at h
      cases ha : addElemNodes e.eid acc l with
      | none => rw [ha] at h; cases h
      | some acc1 =>
        rw [ha] at h
        rw [ih acc1 mp h a n', mem_addElemNodes e.eid l acc acc1 ha a n']
        constructor
        · rintro (⟨x, hx, hprops⟩ | ⟨rfl, hmem⟩ | hacc)
          · exact Or.inl ⟨x, List.mem_cons_of_mem _ hx, hprops⟩
          · exact Or.inl ⟨e, List.mem_cons_self _ _, rfl, l, hn, hmem⟩
          · exact Or.inr hacc
        · rintro (⟨x, hx, rfl, l', hl', hmem⟩ | hacc)
          · rcases List.mem_cons.mp hx with rfl | hx'
            · rw [hn] at hl'
              cases hl'
              exact Or.inr (Or.inl ⟨rfl, hmem⟩)
            · exact Or.inl ⟨x, hx', rfl, l', hl', hmem⟩
          · exact Or.inr (Or.inr hacc)

theorem lookupD_map_nodes (nds : List Entity) (mp : List (Nat × List Nat))
    (nd : Entity) (h : nd ∈ nds) :
    lookupD (nds.map (fun x => (x.eid, lookupD mp x.eid))) nd.eid =
      lookupD mp nd.eid := by
  induction nds with
  | nil => cases h
  | cons x rest ih =>
    simp only [List.map_cons, lookupD]
    by_cases hx : x.eid = nd.eid
    · rw [if_pos hx, hx]
    · rcases List.mem_cons.mp h with rfl | h'
      · exact absurd rfl hx
      · rw [if_neg hx]
        exact ih h'

theorem addElemNodes_none (eid : Nat) (l : List (Option NodeRef))
    (h : l.all (fun s => match s with
      | some (NodeRef.raw _) => false
      | _ => true) = false) :
    ∀ acc, addElemNodes eid acc l = none := by
  induction l with
  | nil => simp at h
  | cons s rest ih =>
    rw [List.all_cons, Bool.and_eq_false_iff] at h
    intro acc
    cases s with
    | none =>
      rcases h with h | h
      · simp at h
      · exact ih h acc
    | some nr =>
      cases nr with
      | live nid =>
        rcases h with h | h
        · simp at h
        · exact ih h (addToNode nid eid acc)
      | raw i => rfl

theorem buildNodeElems_none (es : List Entity) (h : noRaw es = false) :
    ∀ acc, buildNodeElems acc es = none := by
  induction es with
  | nil => simp [noRaw] at h
  | cons e rest ih =>
    rw [noRaw, List.all_cons, Bool.and_eq_false_iff] at h
    intro acc
    cases hn : e.nodes with
    | none =>
      rcases h with h | h
      · rw [hn] at h; simp at h
      · simp only [buildNodeElems, hn]
        exact ih h acc
    | some l =>
      simp only [buildNodeElems, hn]
      rcases h with h | h
      · rw [hn] at h
        rw [addElemNodes_none e.eid l h acc]
      · cases ha : addElemNodes e.eid acc l with
        | none => rfl
        | some acc1 => exact ih h acc1

/-- C8: when every element's node slots are live-or-`None`, the linkage
stage completes, and the attached sets are bidirectionally complete:
every element `E` with a present node list and a resolved node slot
`nid` appears in the element set attached to each model node with id
`nid`, and conversely every element id in a model node's attached set
comes from an element whose node list contains that node's id; elements
with `nodes = None` contribute nothing (covered by the converse
direction).  If any slot is a raw unresolved id, the stage raises
`AttributeError` (a hard error — no tolerated-error bookkeeping), the
state unchanged. -/
theorem C8_linkage_symmetry (m : Model) (st : XSt) :
    (noRaw m.elements = true →
      (xref_nodes_with_elements_st m st).2 = none ∧
      (∀ e ∈ m.elements, ∀ l, e.nodes = some l → ∀ nid,
        some (NodeRef.live nid) ∈ l → ∀ nd ∈ m.nodes, nd.eid = nid →
        e.eid ∈
          lookupD (xref_nodes_with_elements_st m st).1.node_elements nd.eid) ∧
      (∀ nd ∈ m.nodes, ∀ a,
        a ∈ lookupD (xref_nodes_with_elements_st m st).1.node_elements nd.eid →
        ∃ e ∈ m.elements, e.eid = a ∧ ∃ l, e.nodes = some l ∧
          some (NodeRef.live nd.eid) ∈ l)) ∧
    (noRaw m.elements = false →
      xref_nodes_with_elements_st m st = (st, some .attrError)) := by
  constructor
  · intro hraw
    obtain ⟨mp, hmp⟩ := buildNodeElems_some m.elements hraw []
    have hst : xref_nodes_with_elements_st m st =
        ({ st with
            node_elements :=
              m.nodes.map (fun nd => (nd.eid, lookupD mp nd.eid)),
            trace := st.trace ++ [(.linkC, 0)] }, none) := by
      simp only [xref_nodes_with_elements_st, hmp]
    rw [hst]
    refine ⟨rfl, ?_, ?_⟩
    · intro e he l hl nid hmem nd hnd hnid
      dsimp only
      rw [lookupD_map_nodes m.nodes mp nd hnd,
        mem_buildNodeElems m.elements [] mp hmp e.eid nd.eid]
      left
      exact ⟨e, he, rfl, l, hl, by rw [hnid]; exact hmem⟩
    · intro nd hnd a ha
      dsimp only at ha
      rw [lookupD_map_nodes m.nodes mp nd hnd,
        mem_buildNodeElems m.elements [] mp hmp a nd.eid] at ha
      rcases ha with h | h
      · exact h
      · simp [lookupD] at h
  · intro hraw
    simp only [xref_nodes_with_elements_st,
      buildNodeElems_none m.elements hraw []]

/-- Model for the C8 witness: two nodes, one element linking both
(plus one `nodes = None` element). -/
def mW8 : Model :=
  { nodes := [⟨10, none, none⟩, ⟨11, none, none⟩],
    elements := [⟨1, none, some [some (.live 10), some (.live 11), none]⟩,
      ⟨2, none, none⟩] }

/-- Model for the C8 witness hard-error half: one element holding a raw
unresolved node id. -/
def mW8raw : Model := { elements := [⟨3, none, some [some (.raw 99)]⟩] }

/-- Witness for `C8_linkage_symmetry`: on `mW8` the stage completes and
element 1 is attached to node 10; on `mW8raw` the stage raises
`AttributeError`. -/
theorem C8_linkage_symmetry_witness :
    noRaw mW8.elements = true ∧
    1 ∈ lookupD
      (xref_nodes_with_elements_st mW8 initXSt).1.node_elements 10 ∧
    noRaw mW8raw.elements = false ∧
    xref_nodes_with_elements_st mW8raw initXSt =
      (initXSt, some .attrError) :=
  ⟨by decide,
   ((C8_linkage_symmetry mW8 initXSt).1 (by decide)).2.1
     ⟨1, none, some [some (.live 10), some (.live 11), none]⟩ (by decide)
     [some (.live 10), some (.live 11), none] rfl
     10 (by decide)
     ⟨10, none, none⟩ (by decide) rfl,
   by decide,
   (C8_linkage_symmetry mW8raw initXSt).2 (by decide)⟩

/-! ## C1: stage ordering -/

/-- Categories of events that can only be produced by the stages running
after the coordinate stage. -/
def laterCat : Cat → Bool
  | .nodeC => false
  | .spointC => false
  | .coordC => false
  | .setupC => false
  | _ => true

/-- `f` only appends events of later-stage categories to the trace
(whether or not it raises). -/
def TrExt (f : XSt → StageR) : Prop :=
  ∀ st, ∃ d, ((f st).1).trace = st.trace ++ d ∧ ∀ ev ∈ d, laterCat ev.1 = true

theorem TrExt_comp {f g : XSt → StageR} (hf : TrExt f) (hg : TrExt g) :
    TrExt (fun st => andThen (f st) g) := by
  intro st
  obtain ⟨d1, h1, hp1⟩ := hf st
  rcases hres : f st with ⟨st1, o1⟩
  rw [hres] at h1
  simp only at h1
  cases o1 with
  | none =>
    obtain ⟨d2, h2, hp2⟩ := hg st1
    refine ⟨d1 ++ d2, ?_, ?_⟩
    · simp only [hres, andThen_ok, h2, h1, List.append_assoc]
    · intro ev hev
      rcases List.mem_append.mp hev with h | h
      · exact hp1 ev h
      · exact hp2 ev h
  | some e =>
    refine ⟨d1, ?_, hp1⟩
    simp only [hres, andThen_err]
    exact h1

theorem TrExt_if (b : Bool) {f : XSt → StageR} (hf : TrExt f) :
    TrExt (fun st => if b then f st else (st, none)) := by
  cases b
  · intro st
    exact ⟨[], by simp, by simp⟩
  · intro st
    simpa using hf st

theorem trext_plainLoop (c : Cat) (hc : laterCat c = true) (es : List Entity) :
    TrExt (fun st => plainLoop c st es) := by
  induction es with
  | nil => intro st; exact ⟨[], by simp [plainLoop], by simp⟩
  | cons e rest ih =>
    intro st
    cases hx : e.xref with
    | none =>
      obtain ⟨d, hd, hp⟩ := ih { st with trace := st.trace ++ [(c, e.eid)] }
      refine ⟨(c, e.eid) :: d, ?_, ?_⟩
      · simp only [plainLoop, hx]
        rw [hd]
        simp
      · intro ev hev
        rcases List.mem_cons.mp hev with rfl | hh
        · exact hc
        · exact hp ev hh
    | some exc =>
      refine ⟨[], ?_, by simp⟩
      simp [plainLoop, hx]

theorem trext_plainLoops (c : Cat) (hc : laterCat c = true)
    (ess : List (List Entity)) : TrExt (fun st => plainLoops c st ess) := by
  induction ess with
  | nil => intro st; exact ⟨[], by simp [plainLoops], by simp⟩
  | cons es rest ih => exact TrExt_comp (trext_plainLoop c hc es) ih

/-- Trace effect of a single tolerant iteration: either the success
event is appended, or (tolerated failure / propagation) it is left
alone. -/
theorem tolerantOne_trace (c : Cat) (st : XSt) (e : Entity) :
    (tolerantOne c st e).1.trace = st.trace ++ [(c, e.eid)] ∨
    (tolerantOne c st e).1.trace = st.trace := by
  cases hx : e.xref with
  | none => left; simp [tolerantOne, hx]
  | some exc =>
    right
    simp only [tolerantOne, hx]
    split
    · split <;> rfl
    · rfl

theorem trext_tolerantLoop (c : Cat) (hc : laterCat c = true)
    (es : List Entity) : TrExt (fun st => tolerantLoop c st es) := by
  induction es with
  | nil => intro st; exact ⟨[], by simp [tolerantLoop], by simp⟩
  | cons e rest ih =>
    intro st
    rcases hone : tolerantOne c st e with ⟨st1, o1⟩
    have htr := tolerantOne_trace c st e
    rw [hone] at htr
    simp only at htr
    cases o1 with
    | some exc =>
      rcases htr with h | h
      · refine ⟨[(c, e.eid)], ?_, ?_⟩
        · simp only [tolerantLoop, hone, andThen_err]
          exact h
        · intro ev hev
          rcases List.mem_singleton.mp hev with rfl
          exact hc
      · refine ⟨[], ?_, by simp⟩
        simp only [tolerantLoop, hone, andThen_err, List.append_nil]
        exact h
    | none =>
      obtain ⟨d, hd, hp⟩ := ih st1
      rcases htr with h | h
      · refine ⟨(c, e.eid) :: d, ?_, ?_⟩
        · simp only [tolerantLoop, hone, andThen_ok]
          rw [hd, h]
          simp
        · intro ev hev
          rcases List.mem_cons.mp hev with rfl | hh
          · exact hc
          · exact hp ev hh
      · refine ⟨d, ?_, hp⟩
        simp only [tolerantLoop, hone, andThen_ok]
        rw [hd, h]

theorem trext_tolerantLoops (c : Cat) (hc : laterCat c = true)
    (ess : List (List Entity)) : TrExt (fun st => tolerantLoops c st ess) := by
  induction ess with
  | nil => intro st; exact ⟨[], by simp [tolerantLoops], by simp⟩
  | cons es rest ih => exact TrExt_comp (trext_tolerantLoop c hc es) ih

theorem trext_aggLoop (c : Cat) (hc : laterCat c = true) (toMpc : Bool)
    (es : List Entity) : TrExt (fun st => aggLoop c toMpc st es) := by
  induction es with
  | nil => intro st; exact ⟨[], by simp [aggLoop], by simp⟩
  | cons e rest ih =>
    intro st
    cases toMpc with
    | false =>
      cases hx : e.xref with
      | none =>
        obtain ⟨d, hd, hp⟩ := ih
          { st with spcObject := st.spcObject ++ [e.eid],
                    trace := st.trace ++ [(c, e.eid)] }
        refine ⟨(c, e.eid) :: d, ?_, ?_⟩
        · simp only [aggLoop, hx, Bool.false_eq_true, reduceIte]
          rw [hd]
          simp
        · intro ev hev
          rcases List.mem_cons.mp hev with rfl | hh
          · exact hc
          · exact hp ev hh
      | some exc =>
        refine ⟨[], ?_, by simp⟩
        simp [aggLoop, hx]
    | true =>
      cases hx : e.xref with
      | none =>
        obtain ⟨d, hd, hp⟩ := ih
          { st with mpcObject := st.mpcObject ++ [e.eid],
                    trace := st.trace ++ [(c, e.eid)] }
        refine ⟨(c, e.eid) :: d, ?_, ?_⟩
        · simp only [aggLoop, hx, reduceIte]
          rw [hd]
          simp
        · intro ev hev
          rcases List.mem_cons.mp hev with rfl | hh
          · exact hc
          · exact hp ev hh
      | some exc =>
        refine ⟨[], ?_, by simp⟩
        simp [aggLoop, hx]

theorem trext_aggLoops (c : Cat) (hc : laterCat c = true) (toMpc : Bool)
    (ess : List (List Entity)) : TrExt (fun st => aggLoops c toMpc st ess) := by
  induction ess with
  | nil => intro st; exact ⟨[], by simp [aggLoops], by simp⟩
  | cons es rest ih => exact TrExt_comp (trext_aggLoop c hc toMpc es) ih

theorem trext_mpcaddLoop (es : List Entity) :
    TrExt (fun st => mpcaddLoop st es) := by
  cases es with
  | nil => intro st; exact ⟨[], by simp [mpcaddLoop], by simp⟩
  | cons e rest => intro st; exact ⟨[], by simp [mpcaddLoop], by simp⟩

theorem trext_nwe (m : Model) : TrExt (xref_nodes_with_elements_st m) := by
  intro st
  cases hb : buildNodeElems [] m.elements with
  | none =>
    refine ⟨[], ?_, by simp⟩
    simp [xref_nodes_with_elements_st, hb]
  | some mp =>
    refine ⟨[(.linkC, 0)], ?_, by decide⟩
    simp [xref_nodes_with_elements_st, hb]

theorem trext_elements (m : Model) : TrExt (cross_reference_elements m) :=
  TrExt_comp (trext_tolerantLoop .elemC rfl m.elements)
    (trext_tolerantLoop .rigidC rfl m.rigidElements)

theorem trext_properties (m : Model) : TrExt (cross_reference_properties m) :=
  trext_tolerantLoop .propC rfl m.properties

theorem trext_masses (m : Model) : TrExt (cross_reference_masses m) :=
  TrExt_comp (trext_tolerantLoop .massC rfl m.masses)
    (trext_tolerantLoop .pmassC rfl m.properties_mass)

theorem trext_materials (m : Model) : TrExt (cross_reference_materials m) :=
  TrExt_comp (trext_tolerantLoop .matC rfl m.materials)
    (trext_tolerantLoops .matdepC rfl m.material_deps)

theorem trext_aero (m : Model) : TrExt (cross_reference_aero m) :=
  TrExt_comp (trext_plainLoop .caeroC rfl m.caeros)
    (TrExt_comp (trext_plainLoop .paeroC rfl m.paeros)
      (TrExt_comp (trext_plainLoop .splineC rfl m.splines)
        (TrExt_comp (trext_plainLoop .aecompC rfl m.aecomps)
          (TrExt_comp (trext_plainLoop .aelistC rfl m.aelists)
            (TrExt_comp (trext_plainLoop .aeparamC rfl m.aeparams)
              (TrExt_comp (trext_plainLoop .aestatC rfl m.aestats)
                (trext_plainLoop .aesurfC rfl m.aesurfs)))))))

theorem trext_constraints (m : Model) :
    TrExt (cross_reference_constraints m) :=
  TrExt_comp (trext_aggLoop .spcaddC rfl false m.spcadds)
    (TrExt_comp (trext_aggLoops .spcC rfl false m.spcs)
      (TrExt_comp (trext_mpcaddLoop m.mpcadds)
        (TrExt_comp (trext_aggLoops .mpcC rfl true m.mpcs)
          (TrExt_comp (trext_plainLoop .suportC rfl m.suport)
            (TrExt_comp (trext_plainLoop .suport1C rfl m.suport1)
              (trext_plainLoop .sesuportC rfl m.se_suport))))))

theorem trext_loads (m : Model) : TrExt (cross_reference_loads m) :=
  TrExt_comp (trext_tolerantLoops .loadC rfl m.loads)
    (TrExt_comp (trext_tolerantLoops .dloadC rfl m.dloads)
      (trext_tolerantLoops .dloadeC rfl m.dload_entries))

theorem trext_sets (m : Model) : TrExt (cross_reference_sets m) :=
  TrExt_comp (trext_plainLoop .asetC rfl m.asets)
    (TrExt_comp (trext_plainLoop .bsetC rfl m.bsets)
      (TrExt_comp (trext_plainLoop .csetC rfl m.csets)
        (TrExt_comp (trext_plainLoop .qsetC rfl m.qsets)
          (TrExt_comp (trext_plainLoops .usetC rfl m.usets)
            (TrExt_comp (trext_plainLoop .sesetC rfl m.se_sets)
              (TrExt_comp (trext_plainLoop .sebsetC rfl m.se_bsets)
                (TrExt_comp (trext_plainLoop .secsetC rfl m.se_csets)
                  (TrExt_comp (trext_plainLoop .seqsetC rfl m.se_qsets)
                    (trext_plainLoop .seusetC rfl m.se_usets)))))))))

theorem trext_optimization (m : Model) :
    TrExt (cross_reference_optimization m) :=
  TrExt_comp (trext_plainLoop .drespC rfl m.dresps)
    (trext_plainLoop .dconstrC rfl m.dconstrs)

/-- The whole post-coordinate chain of `cross_reference` only appends
later-category events, whatever the toggles and outcomes. -/
theorem trext_rest (m : Model) (b1 b2 b3 b4 b5 b6 b7 b8 b9 : Bool) :
    TrExt (fun st =>
      andThen (if b1 then cross_reference_elements m st else (st, none)) (fun st =>
      andThen (if b2 then xref_nodes_with_elements_st m st else (st, none)) (fun st =>
      andThen (if b3 then cross_reference_properties m st else (st, none)) (fun st =>
      andThen (if b4 then cross_reference_masses m st else (st, none)) (fun st =>
      andThen (if b5 then cross_reference_materials m st else (st, none)) (fun st =>
      andThen (if b6 then cross_reference_aero m st else (st, none)) (fun st =>
      andThen (if b7 then cross_reference_constraints m st else (st, none)) (fun st =>
      andThen (if b8 then cross_reference_loads m st else (st, none)) (fun st =>
      andThen (if b9 then cross_reference_sets m st else (st, none)) (fun st =>
      cross_reference_optimization m st)))))))))) :=
  TrExt_comp (TrExt_if b1 (trext_elements m))
    (TrExt_comp (TrExt_if b2 (trext_nwe m))
      (TrExt_comp (TrExt_if b3 (trext_properties m))
        (TrExt_comp (TrExt_if b4 (trext_masses m))
          (TrExt_comp (TrExt_if b5 (trext_materials m))
            (TrExt_comp (TrExt_if b6 (trext_aero m))
              (TrExt_comp (TrExt_if b7 (trext_constraints m))
                (TrExt_comp (TrExt_if b8 (trext_loads m))
                  (TrExt_comp (TrExt_if b9 (trext_sets m))
                    (trext_optimization m)))))))))

/-- Events produced by `_cross_reference_nodes`: one per node, plus the
scalar-point index build. -/
def nodesStageEvs (m : Model) : List XEvent :=
  m.nodes.map (fun e => (Cat.nodeC, e.eid)) ++
    (if m.spoints then [(Cat.spointC, 0)] else [])

/-- Events produced by `_cross_reference_coordinates`: every
coordinate's `cross_reference`, then every coordinate's `setup`. -/
def coordStageEvs (m : Model) : List XEvent :=
  m.coords.map (fun c => (Cat.coordC, c.cid)) ++
    m.coords.map (fun c => (Cat.setupC, c.cid))

/-- The amended C1 ordering, as a decidable check on the trace `tr` of a
pass started with trace `tr0`: first all node-stage events, then the
full coordinate stage (all `cross_reference`s, then all `setup`s), and
only later-category events afterwards. -/
def nodesThenCoordsFirst (m : Model) (tr0 tr : List XEvent) : Bool :=
  (tr.take (tr0.length + (nodesStageEvs m).length + (coordStageEvs m).length) ==
    tr0 ++ nodesStageEvs m ++ coordStageEvs m) &&
  (tr.drop (tr0.length + (nodesStageEvs m).length + (coordStageEvs m).length)).all
    (fun ev => laterCat ev.1)

theorem xref_nodes_clean (m : Model) (h : ∀ e ∈ m.nodes, e.xref = none)
    (st : XSt) : ∃ st', xref_nodes_st m st = (st', none) ∧
      st'.trace = st.trace ++ nodesStageEvs m := by
  rw [xref_nodes_st, plainLoop_clean _ _ _ h, andThen_ok]
  cases hsp : m.spoints
  · exact ⟨_, rfl, by simp [nodesStageEvs, hsp]⟩
  · exact ⟨_, rfl, by simp [nodesStageEvs, hsp]⟩

theorem xref_coords_clean (m : Model) (h : coordsOk m.coords = true)
    (st : XSt) : ∃ st', xref_coords_st m st = (st', none) ∧
      st'.trace = st.trace ++ coordStageEvs m := by
  simp only [coordsOk, List.all_eq_true, Bool.and_eq_true,
    Option.isNone_iff_eq_none] at h
  have h1 : ∀ e ∈ m.coords.map (fun c => (⟨c.cid, c.xref, none⟩ : Entity)),
      e.xref = none := by
    intro e he
    rw [List.mem_map] at he
    obtain ⟨c, hcm, rfl⟩ := he
    exact (h c hcm).1
  have h2 : ∀ e ∈ m.coords.map (fun c => (⟨c.cid, c.setup, none⟩ : Entity)),
      e.xref = none := by
    intro e he
    rw [List.mem_map] at he
    obtain ⟨c, hcm, rfl⟩ := he
    exact (h c hcm).2
  rw [xref_coords_st, plainLoop_clean _ _ _ h1, andThen_ok,
    plainLoop_clean _ _ _ h2]
  refine ⟨_, rfl, ?_⟩
  simp only [coordStageEvs, List.map_map, List.append_assoc]
  rfl

theorem cross_reference_true_unfold (m : Model) (st st1 st2 : XSt)
    (xe xn xp xm xmat xl xc xa xs : Bool)
    (h1 : xref_nodes_st m st = (st1, none))
    (h2 : xref_coords_st m st1 = (st2, none)) :
    cross_reference m st true xe xn xp xm xmat xl xc xa xs =
      andThen (if xe then cross_reference_elements m st2 else (st2, none)) (fun st =>
      andThen (if xn then xref_nodes_with_elements_st m st else (st, none)) (fun st =>
      andThen (if xp then cross_reference_properties m st else (st, none)) (fun st =>
      andThen (if xm then cross_reference_masses m st else (st, none)) (fun st =>
      andThen (if xmat then cross_reference_materials m st else (st, none)) (fun st =>
      andThen (if xa then cross_reference_aero m st else (st, none)) (fun st =>
      andThen (if xc then cross_reference_constraints m st else (st, none)) (fun st =>
      andThen (if xl then cross_reference_loads m st else (st, none)) (fun st =>
      andThen (if xs then cross_reference_sets m st else (st, none)) (fun st =>
      cross_reference_optimization m st))))))))) := by
  show andThen (xref_nodes_st m st) _ = _
  rw [h1, andThen_ok]
  show andThen (xref_coords_st m st1) _ = _
  rw [h2, andThen_ok]

/-- C1 (amended): with `xref=True` the *node* collection is resolved
first, then the coordinate collection is fully resolved (every
coordinate's `cross_reference`, then every coordinate's `setup`), before
the resolution of any other category begins — the reverse of the claimed
Coordinate-then-Node order. -/
theorem C1_nodes_then_coords (m : Model) (st : XSt)
    (xe xn xp xm xmat xl xc xa xs : Bool)
    (hn : allOk m.nodes = true) (hc : coordsOk m.coords = true) :
    nodesThenCoordsFirst m st.trace
      ((cross_reference m st true xe xn xp xm xmat xl xc xa xs).1).trace
      = true := by
  rw [allOk_iff] at hn
  obtain ⟨st1, h1, htr1⟩ := xref_nodes_clean m hn st
  obtain ⟨st2, h2, htr2⟩ := xref_coords_clean m hc st1
  obtain ⟨d, hd, hp⟩ := trext_rest m xe xn xp xm xmat xa xc xl xs st2
  simp only at hd
  rw [cross_reference_true_unfold m st st1 st2 xe xn xp xm xmat xl xc xa xs h1 h2,
    hd, htr2, htr1]
  have hA : ((st.trace ++ nodesStageEvs m) ++ coordStageEvs m).length =
      st.trace.length + (nodesStageEvs m).length + (coordStageEvs m).length := by
    simp only [List.length_append]
  rw [nodesThenCoordsFirst, Bool.and_eq_true]
  constructor
  · rw [List.take_left' hA]
    simp
  · rw [List.drop_left' hA]
    exact List.all_eq_true.mpr hp

/-- `true` on events that are not coordinate-stage events. -/
def notCoordEv : XEvent → Bool := fun ev =>
  match ev.1 with
  | .coordC => false
  | .setupC => false
  | _ => true

/-- No coordinate-stage event occurs after a node event. -/
def noCoordAfterNode : List XEvent → Bool
  | [] => true
  | ev :: rest =>
    (if ev.1 = Cat.nodeC then rest.all notCoordEv else true) &&
      noCoordAfterNode rest

/-- The C1 claim as stated: the coordinate collection is fully resolved
(every coordinate's `cross_reference` and `setup` appear in the trace)
before the resolution of any node begins. -/
def coordsResolvedBeforeNodes (m : Model) (tr : List XEvent) : Bool :=
  m.coords.all (fun c =>
    tr.contains (Cat.coordC, c.cid) && tr.contains (Cat.setupC, c.cid)) &&
    noCoordAfterNode tr

/-- C1 counterexample: on a model with one node (id 1) and one
coordinate (id 2), the default `cross_reference(xref=True)` pass
resolves the node *before* the coordinate, so the claimed
Coordinate-then-Node order is violated. -/
theorem C1_counterexample :
    coordsResolvedBeforeNodes mC1
      ((cross_reference mC1 initXSt
        true true true true true true true true true true).1).trace = false := by
  decide

/-- Witness for `C1_nodes_then_coords` at the model `mC1` with every
toggle on. -/
theorem C1_nodes_then_coords_witness :
    nodesThenCoordsFirst mC1 initXSt.trace
      ((cross_reference mC1 initXSt
        true true true true true true true true true true).1).trace = true :=
  C1_nodes_then_coords mC1 initXSt true true true true true true true true true
    (by decide) (by decide)

/-! ## C4 -/

/-- The model used to exercise the toggles: one clean entity in each of
the nine toggled categories, plus a node, a coordinate and a design
response. -/
def mTog : Model :=
  { nodes := [⟨1, none, none⟩],
    coords := [⟨2, none, none⟩],
    elements := [⟨30, none, none⟩],
    properties := [⟨31, none, none⟩],
    masses := [⟨32, none, none⟩],
    materials := [⟨33, none, none⟩],
    loads := [[⟨34, none, none⟩]],
    spcadds := [⟨35, none, none⟩],
    caeros := [⟨36, none, none⟩],
    asets := [⟨37, none, none⟩],
    dresps := [⟨38, none, none⟩] }

/-- Trace of a pass over `mTog` with `xref=True` and the given nine
category toggles (in the entry point's argument order). -/
def runTog (b1 b2 b3 b4 b5 b6 b7 b8 b9 : Bool) : List XEvent :=
  ((cross_reference mTog initXSt true b1 b2 b3 b4 b5 b6 b7 b8 b9).1).trace

/-- One representative trace event per toggled category, in the order
elements, linkage, properties, masses, materials, loads, constraints,
aero, sets. -/
def togReps : List XEvent :=
  [(.elemC, 30), (.linkC, 0), (.propC, 31), (.massC, 32), (.matC, 33),
   (.loadC, 34), (.spcaddC, 35), (.caeroC, 36), (.asetC, 37)]

/-- Representative events of the always-on categories. -/
def alwaysReps : List XEvent :=
  [(.nodeC, 1), (.coordC, 2), (.setupC, 2), (.drespC, 38)]

/-- C4 counterexample: with `xref=True` and every exposed toggle off,
the pass still resolves the node, coordinate and optimization
collections — so there is no independent toggle for the coordinates,
nodes, or optimization categories, refuting the twelve-fold claim. -/
theorem C4_counterexample :
    runTog false false false false false false false false false =
      [(.nodeC, 1), (.coordC, 2), (.setupC, 2), (.drespC, 38)] := by
  decide

/-- C4 (amended): the entry point exposes ten keyword toggles — the
master `xref` plus one for each of the nine categories elements,
node-element linkage, properties, masses, materials, loads, constraints,
aerodynamics and sets — all defaulting to on; turning exactly one off
removes exactly that category's resolution and leaves every other
category resolved, while coordinates, nodes and optimization have no
toggle and are always resolved whenever `xref=True`. -/
theorem C4_nine_independent_toggles :
    (togReps.all (fun ev => (runTog true true true true true true true true true).contains ev) = true) ∧
    (alwaysReps.all (fun ev => (runTog true true true true true true true true true).contains ev) = true) ∧
    ((runTog false true true true true true true true true).contains (.elemC, 30) = false ∧
      ((togReps.erase (.elemC, 30)).all
        (fun ev => (runTog false true true true true true true true true).contains ev) = true)) ∧
    ((runTog true false true true true true true true true).contains (.linkC, 0) = false ∧
      ((togReps.erase (.linkC, 0)).all
        (fun ev => (runTog true false true true true true true true true).contains ev) = true)) ∧
    ((runTog true true false true true true true true true).contains (.propC, 31) = false ∧
      ((togReps.erase (.propC, 31)).all
        (fun ev => (runTog true true false true true true true true true).contains ev) = true)) ∧
    ((runTog true true true false true true true true true).contains (.massC, 32) = false ∧
      ((togReps.erase (.massC, 32)).all
        (fun ev => (runTog true true true false true true true true true).contains ev) = true)) ∧
    ((runTog true true true true false true true true true).contains (.matC, 33) = false ∧
      ((togReps.erase (.matC, 33)).all
        (fun ev => (runTog true true true true false true true true true).contains ev) = true)) ∧
    ((runTog true true true true true false true true true).contains (.loadC, 34) = false ∧
      ((togReps.erase (.loadC, 34)).all
        (fun ev => (runTog true true true true true false true true true).contains ev) = true)) ∧
    ((runTog true true true true true true false true true).contains (.spcaddC, 35) = false ∧
      ((togReps.erase (.spcaddC, 35)).all
        (fun ev => (runTog true true true true true true false true true).contains ev) = true)) ∧
    ((runTog true true true true true true true false true).contains (.caeroC, 36) = false ∧
      ((togReps.erase (.caeroC, 36)).all
        (fun ev => (runTog true true true true true true true false true).contains ev) = true)) ∧
    ((runTog true true true true true true true true false).contains (.asetC, 37) = false ∧
      ((togReps.erase (.asetC, 37)).all
        (fun ev => (runTog true true true true true true true true false).contains ev) = true)) ∧
    (alwaysReps.all
      (fun ev => (runTog false false false false false false false false false).contains ev) = true) := by
  decide
